import Mathlib

/-!
sqlitepp17: binding cursor, step protocol and row decoding.

A shallow embedding of `include/sqlitepp17/utils.h`, `include/sqlitepp17/statement.h`,
`include/sqlitepp17/database.h` and `include/sqlitepp17.h`.

Conventions of the embedding.

* C++ `int` is `Int`.  Signed overflow is undefined behaviour in C++ and lies outside
  the embedding; no definition below relies on wrap-around.
* The SQL engine (`sqlite3_*`) is an external library.  A compiled statement
  (`sqlite3_stmt`) is a record holding the engine's parameter slots together with the
  answers the engine gives to the wrapper: the result code of each bind, the index of each
  parameter name, the outcomes of the coming `sqlite3_step` calls, and the typed column
  readers of the current row.  Nothing is assumed about how the engine computes them.
* A member function that may throw returns an `Outcome`: the statement object as the call
  leaves it, together with the exception when one was raised.  The object outlives the
  exception, so its fields are kept in both cases.
* `sqlite3_column_text` is taken to return a proper C string; building a `std::string`
  from a null pointer is undefined behaviour and lies outside the embedding.
-/

namespace sqlitepp17

/-! ## Engine constants (`sqlite3.h`) -/

/-- Result code `SQLITE_OK` of `sqlite3.h`. -/
def SQLITE_OK : Int := 0

/-- Result code `SQLITE_ROW` of `sqlite3.h`: `sqlite3_step` has another row ready. -/
def SQLITE_ROW : Int := 100

/-- Result code `SQLITE_DONE` of `sqlite3.h`: `sqlite3_step` has finished executing. -/
def SQLITE_DONE : Int := 101

/-- Fundamental datatype tag `SQLITE_NULL` of `sqlite3.h`. -/
def SQLITE_NULL : Int := 5

/-! ## utils.h -/

/-- The exception class `error`: built from an engine result code or from a message. -/
inductive error
  | code (res : Int)
  | msg (m : String)
  deriving DecidableEq

deriving instance DecidableEq for Except

/-- The helper `check(res)`: the exception it throws, if any.  It throws `error(res)` exactly
when `res` is none of `SQLITE_DONE`, `SQLITE_OK`, `SQLITE_ROW`. -/
def check (res : Int) : Option error :=
  if res ≠ SQLITE_DONE ∧ res ≠ SQLITE_OK ∧ res ≠ SQLITE_ROW then some (error.code res) else none

/-- The exception thrown by `no_row()`. -/
def no_row : error := error.msg "no row"

/-! ## Values handed to and received from the engine -/

/-- A value accepted by one of the three `bind_impl` overloads: `int`, `std::string`,
`std::nullptr_t`. -/
inductive Scalar
  | int (v : Int)
  | text (s : String)
  | null
  deriving DecidableEq

/-- An argument of `bind`: a scalar, a `std::pair`, or a `std::tuple` of arguments. -/
inductive Arg
  | scalar (s : Scalar)
  | pair (first second : Arg)
  | tuple (args : List Arg)

/-- The scalar types with a `from_sql` overload: `int`, `double`, `std::string`,
`const void *`. -/
inductive ScalarTy
  | int
  | double
  | text
  | blob
  deriving DecidableEq

/-- A type that can be requested from `get<T>`. -/
inductive Ty
  | scalar (s : ScalarTy)
  | optional (T : Ty)
  | pair (T1 T2 : Ty)
  | tuple (Ts : List Ty)

/-- A decoded value.  A `double` is represented by the rational it denotes, a blob by the
address the engine returned. -/
inductive Val
  | int (v : Int)
  | double (d : Rat)
  | text (s : String)
  | blob (p : Nat)
  | absent
  | present (v : Val)
  | pair (first second : Val)
  | tuple (vs : List Val)

/-! ## The engine side of a prepared statement -/

/-- The current result row, as the engine presents it through `sqlite3_column_*`. -/
structure Row where
  column_type : Int → Int
  column_int : Int → Int
  column_double : Int → Rat
  column_text : Int → String
  column_blob : Int → Nat

/-- The outcome of one future `sqlite3_step` call: a row, or a bare result code. -/
inductive StepEvent
  | row (r : Row)
  | code (res : Int)

/-- The engine's compiled statement.
* `bound`: the parameter slots (`none` = never bound / cleared);
* `bind_calls`: every `sqlite3_bind_*` call received so far, in order;
* `bind_rc`: the result code the engine gives to a bind of a value at an index;
* `parameter_index`: the answer of `sqlite3_bind_parameter_index` (0 = no such name);
* `pending`: the outcomes of the coming `sqlite3_step` calls (afterwards `SQLITE_DONE`);
* `current`: the row the column readers look at;
* `column_count`: the answer of `sqlite3_column_count`;
* `reset_rc`, `clear_bindings_rc`: the result codes of `sqlite3_reset` and
  `sqlite3_clear_bindings`. -/
structure sqlite3_stmt where
  bound : Int → Option Scalar
  bind_calls : List (Int × Scalar)
  bind_rc : Int → Scalar → Int
  parameter_index : String → Int
  pending : List StepEvent
  current : Row
  column_count : Int
  reset_rc : Int
  clear_bindings_rc : Int

/-- The engine calls `sqlite3_bind_int`, `sqlite3_bind_text`, `sqlite3_bind_null`: the call is
recorded, and the slot is written when the engine answers `SQLITE_OK`. -/
def sqlite3_bind (e : sqlite3_stmt) (idx : Int) (value : Scalar) : Int × sqlite3_stmt :=
  (e.bind_rc idx value,
   { e with
     bind_calls := e.bind_calls ++ [(idx, value)]
     bound := if e.bind_rc idx value = SQLITE_OK then Function.update e.bound idx (some value)
              else e.bound })

/-- The engine call `sqlite3_bind_parameter_index`. -/
def sqlite3_bind_parameter_index (e : sqlite3_stmt) (col : String) : Int :=
  e.parameter_index col

/-- The engine call `sqlite3_step`. -/
def sqlite3_step (e : sqlite3_stmt) : Int × sqlite3_stmt :=
  match e.pending with
  | [] => (SQLITE_DONE, e)
  | StepEvent.row r :: rest => (SQLITE_ROW, { e with pending := rest, current := r })
  | StepEvent.code res :: rest => (res, { e with pending := rest })

/-- The engine call `sqlite3_reset`. -/
def sqlite3_reset (e : sqlite3_stmt) : Int × sqlite3_stmt :=
  (e.reset_rc, e)

/-- The engine call `sqlite3_clear_bindings`: on `SQLITE_OK` every slot is unbound. -/
def sqlite3_clear_bindings (e : sqlite3_stmt) : Int × sqlite3_stmt :=
  (e.clear_bindings_rc,
   if e.clear_bindings_rc = SQLITE_OK then { e with bound := fun _ => none } else e)

/-! ## statement.h -/

/-- The class `statement`: the owned engine statement and the positional cursor
`m_bind_idx` (member initialiser `1`). -/
structure statement where
  m_stmt : sqlite3_stmt
  m_bind_idx : Int

/-- How a member function that may throw leaves: normally, or with an exception; in both
cases with the statement object in the state the call left it. -/
inductive Outcome
  | ok (st : statement)
  | throw (e : error) (st : statement)

/-- The statement object after the call. -/
def Outcome.st : Outcome → statement
  | Outcome.ok st => st
  | Outcome.throw _ st => st

/-- The exception the call raised, if any. -/
def Outcome.raised : Outcome → Option error
  | Outcome.ok _ => none
  | Outcome.throw e _ => some e

/-- The constructor `statement(sql, db)` once `sqlite3_prepare_v2` has answered `res`
and produced `buf`. -/
def statement.prepare (res : Int) (buf : sqlite3_stmt) : Except error statement :=
  match check res with
  | some err => Except.error err
  | none => Except.ok { m_stmt := buf, m_bind_idx := 1 }

/-- The move constructor `statement(statement &&other)`. -/
def statement.move (other : statement) : statement :=
  { m_stmt := other.m_stmt, m_bind_idx := other.m_bind_idx }

/-- The accessor `bind_idx()`. -/
def statement.bind_idx (st : statement) : Int := st.m_bind_idx

/-- The member `decrement_next()`: `m_bind_idx = std::max(m_bind_idx - 1, 1)`. -/
def statement.decrement_next (st : statement) : statement :=
  { st with m_bind_idx := max (st.m_bind_idx - 1) 1 }

/-- The side effect of the argument expression `m_bind_idx++`. -/
def statement.post_increment (st : statement) : statement :=
  { st with m_bind_idx := st.m_bind_idx + 1 }

/-- The three overloads of `bind_impl(idx, value)`: `check(sqlite3_bind_*(...))`. -/
def statement.bind_impl (st : statement) (idx : Int) (value : Scalar) : Outcome :=
  match check (sqlite3_bind st.m_stmt idx value).1 with
  | some err => Outcome.throw err { st with m_stmt := (sqlite3_bind st.m_stmt idx value).2 }
  | none => Outcome.ok { st with m_stmt := (sqlite3_bind st.m_stmt idx value).2 }

mutual
/-- The `to_sql` overloads of `sqlitepp17.h`.  The generic one calls `bind_impl(idx, value)`.
The pair and tuple ones ignore their index: they call `decrement_next()` and then
`stmt.bind(component)` for each component in order, where `stmt.bind(x)` is
`bind(m_bind_idx++, x)`, that is `to_sql(stmt, x, old cursor)` on the advanced cursor. -/
def to_sql : Arg → Int → statement → Outcome
  | Arg.scalar value, idx, stmt => stmt.bind_impl idx value
  | Arg.pair first second, _, stmt =>
      match to_sql first stmt.decrement_next.m_bind_idx stmt.decrement_next.post_increment with
      | Outcome.throw e s => Outcome.throw e s
      | Outcome.ok s => to_sql second s.m_bind_idx s.post_increment
  | Arg.tuple args, _, stmt => bind_each args stmt.decrement_next
/-- The fold `(stmt.bind(args), ...)` over the components of a tuple, left to right. -/
def bind_each : List Arg → statement → Outcome
  | [], stmt => Outcome.ok stmt
  | a :: rest, stmt =>
      match to_sql a stmt.m_bind_idx stmt.post_increment with
      | Outcome.throw e s => Outcome.throw e s
      | Outcome.ok s => bind_each rest s
end

/-- The overload `bind(int idx, const T &value)`: `to_sql(*this, value, idx++)`. -/
def statement.bind_at (st : statement) (idx : Int) (value : Arg) : Outcome :=
  to_sql value idx st

/-- The overload `bind(const T &value)`: `bind(m_bind_idx++, value)`. -/
def statement.bind (st : statement) (value : Arg) : Outcome :=
  st.post_increment.bind_at st.m_bind_idx value

/-- The overload `bind(const std::string &col, const T &value)`. -/
def statement.bind_named (st : statement) (col : String) (value : Arg) : Outcome :=
  if sqlite3_bind_parameter_index st.m_stmt col ≠ 0 then
    match st.bind_at (sqlite3_bind_parameter_index st.m_stmt col) value with
    | Outcome.throw e s => Outcome.throw e s
    | Outcome.ok s =>
        Outcome.ok { s with m_bind_idx := sqlite3_bind_parameter_index st.m_stmt col + 1 }
  else Outcome.ok st

/-- The member `reset()`. -/
def statement.reset (st : statement) : Outcome :=
  match check (sqlite3_reset st.m_stmt).1 with
  | some err => Outcome.throw err { st with m_stmt := (sqlite3_reset st.m_stmt).2 }
  | none =>
      match check (sqlite3_clear_bindings (sqlite3_reset st.m_stmt).2).1 with
      | some err =>
          Outcome.throw err
            { st with m_stmt := (sqlite3_clear_bindings (sqlite3_reset st.m_stmt).2).2 }
      | none =>
          Outcome.ok
            { m_stmt := (sqlite3_clear_bindings (sqlite3_reset st.m_stmt).2).2, m_bind_idx := 1 }

/-- The member `step()`: the value returned or the exception thrown, and the statement
afterwards. -/
def statement.step (st : statement) : Except error Bool × statement :=
  if (sqlite3_step st.m_stmt).1 = SQLITE_ROW then
    (Except.ok true, { st with m_stmt := (sqlite3_step st.m_stmt).2 })
  else if (sqlite3_step st.m_stmt).1 = SQLITE_DONE then
    (Except.ok false, { st with m_stmt := (sqlite3_step st.m_stmt).2 })
  else
    match check (sqlite3_step st.m_stmt).1 with
    | some err => (Except.error err, { st with m_stmt := (sqlite3_step st.m_stmt).2 })
    | none => (Except.ok false, { st with m_stmt := (sqlite3_step st.m_stmt).2 })

/-- The member `columns()`. -/
def statement.columns (st : statement) : Int :=
  st.m_stmt.column_count

/-- The member `column_type(idx)`. -/
def statement.column_type (st : statement) (idx : Int) : Int :=
  st.m_stmt.current.column_type idx

/-- The member `get_impl_i(idx)`. -/
def statement.get_impl_i (st : statement) (idx : Int) : Int :=
  st.m_stmt.current.column_int idx

/-- The member `get_impl_d(idx)`. -/
def statement.get_impl_d (st : statement) (idx : Int) : Rat :=
  st.m_stmt.current.column_double idx

/-- The member `get_impl_s(idx)`. -/
def statement.get_impl_s (st : statement) (idx : Int) : String :=
  st.m_stmt.current.column_text idx

/-- The member `get_impl_blob(idx)`. -/
def statement.get_impl_blob (st : statement) (idx : Int) : Nat :=
  st.m_stmt.current.column_blob idx

mutual
/-- The `from_sql` overloads of `sqlitepp17.h`, with `stmt.get<T>(i)` unfolded to
`from_sql(stmt, val, i)`.  The result is the decoded value together with the column
indices handed to the engine's column functions, in call order. -/
def from_sql : Ty → Int → statement → Val × List Int
  | Ty.scalar ScalarTy.text, idx, stmt => (Val.text (stmt.get_impl_s idx), [idx])
  | Ty.scalar ScalarTy.int, idx, stmt => (Val.int (stmt.get_impl_i idx), [idx])
  | Ty.scalar ScalarTy.double, idx, stmt => (Val.double (stmt.get_impl_d idx), [idx])
  | Ty.scalar ScalarTy.blob, idx, stmt => (Val.blob (stmt.get_impl_blob idx), [idx])
  | Ty.tuple Ts, idx, stmt => (Val.tuple (from_sql_each Ts idx stmt).1, (from_sql_each Ts idx stmt).2)
  | Ty.pair T1 T2, idx, stmt =>
      (Val.pair (from_sql T1 idx stmt).1 (from_sql T2 (idx + 1) stmt).1,
       (from_sql T1 idx stmt).2 ++ (from_sql T2 (idx + 1) stmt).2)
  | Ty.optional T, idx, stmt =>
      if stmt.column_type idx = SQLITE_NULL then (Val.absent, [idx])
      else (Val.present (from_sql T idx stmt).1, idx :: (from_sql T idx stmt).2)
/-- The fold `((args = stmt.get<...>(idx++)), ...)` over the components of a tuple. -/
def from_sql_each : List Ty → Int → statement → List Val × List Int
  | [], _, _ => ([], [])
  | T :: Ts, idx, stmt =>
      ((from_sql T idx stmt).1 :: (from_sql_each Ts (idx + 1) stmt).1,
       (from_sql T idx stmt).2 ++ (from_sql_each Ts (idx + 1) stmt).2)
end

/-- The member `get<T>(idx)`: `T val; from_sql(*this, val, idx); return val;`. -/
def statement.get (st : statement) (T : Ty) (idx : Int) : Val :=
  (from_sql T idx st).1

/-- The loop `while (step()) out.push_back(get<T>());` of `to(std::vector<T> &)`. -/
def statement.to_loop (T : Ty) (out : List Val) (st : statement) : List Val × Outcome :=
  match h : st.step with
  | (Except.ok true, s) => statement.to_loop T (out ++ [s.get T 0]) s
  | (Except.ok false, s) => (out, Outcome.ok s)
  | (Except.error e, s) => (out, Outcome.throw e s)
termination_by st.m_stmt.pending.length
decreasing_by
  have hs : s = { st with m_stmt := (sqlite3_step st.m_stmt).2 } := by
    unfold statement.step at h
    split at h
    · exact (congrArg Prod.snd h).symm
    · split at h
      · exact (congrArg Prod.snd h).symm
      · split at h <;> exact (congrArg Prod.snd h).symm
  subst hs
  unfold statement.step at h
  unfold sqlite3_step at h ⊢
  cases hp : st.m_stmt.pending with
  | nil =>
      rw [hp] at h
      simp [SQLITE_DONE, SQLITE_ROW] at h
  | cons ev rest =>
      cases ev <;> simp

/-- The overload `to(std::vector<T> &out)`: the new content of `out` and the outcome. -/
def statement.to_vector (st : statement) (T : Ty) (_out : List Val) : List Val × Outcome :=
  statement.to_loop T [] st

/-- The overload `to(T &out)`: the new content of `out` and the outcome. -/
def statement.to_value (st : statement) (T : Ty) (out : Val) : Val × Outcome :=
  match st.step with
  | (Except.ok false, s) => (out, Outcome.throw no_row s)
  | (Except.error e, s) => (out, Outcome.throw e s)
  | (Except.ok true, s) => (s.get T 0, Outcome.ok s)

/-- The arguments `std::apply(func, t)` passes to `func`: the components of the tuple `t`. -/
def Val.components : Val → List Val
  | Val.tuple vs => vs
  | _ => []

/-- The loop `while (step()) std::apply(func, get<args>());` of `exec(Func &&func)`, where
`args` is the tuple of the callback's parameter types `Ts`.  The callback acts on the state
`σ` it captured; its effect when called with the arguments `a` is `func a`. -/
def statement.exec_loop {σ : Type} (Ts : List Ty) (func : List Val → σ → σ) (acc : σ)
    (st : statement) : σ × Outcome :=
  match h : st.step with
  | (Except.ok true, s) =>
      statement.exec_loop Ts func (func (s.get (Ty.tuple Ts) 0).components acc) s
  | (Except.ok false, s) => (acc, Outcome.ok s)
  | (Except.error e, s) => (acc, Outcome.throw e s)
termination_by st.m_stmt.pending.length
decreasing_by
  have hs : s = { st with m_stmt := (sqlite3_step st.m_stmt).2 } := by
    unfold statement.step at h
    split at h
    · exact (congrArg Prod.snd h).symm
    · split at h
      · exact (congrArg Prod.snd h).symm
      · split at h <;> exact (congrArg Prod.snd h).symm
  subst hs
  unfold statement.step at h
  unfold sqlite3_step at h ⊢
  cases hp : st.m_stmt.pending with
  | nil =>
      rw [hp] at h
      simp [SQLITE_DONE, SQLITE_ROW] at h
  | cons ev rest =>
      cases ev <;> simp

/-- The overload `exec(Func &&func)`: the captured state after the calls and the outcome. -/
def statement.exec_callback {σ : Type} (st : statement) (Ts : List Ty)
    (func : List Val → σ → σ) (acc : σ) : σ × Outcome :=
  statement.exec_loop Ts func acc st

/-! ## database.h -/

/-- The class `database`: the owned connection `m_db`, represented by the answer of
`sqlite3_prepare_v2` on it to each SQL text (result code and compiled statement). -/
structure database where
  m_db : String → Int × sqlite3_stmt

/-- The member `query(sql, args...)`: `statement st(sql, m_db.get()); (st.bind(args), ...);
return st;`.  The fold of `st.bind` over the arguments is `bind_each`; the statement is
returned through the move constructor; an exception leaves no statement. -/
def database.query (db : database) (sql : String) (args : List Arg) : Except error statement :=
  match statement.prepare (db.m_db sql).1 (db.m_db sql).2 with
  | Except.error err => Except.error err
  | Except.ok st =>
      match bind_each args st with
      | Outcome.throw err _ => Except.error err
      | Outcome.ok s => Except.ok (statement.move s)

/-! ## C++ argument types that reach the generic `to_sql` -/

/-- A C++ value handed to `bind` whose type has no `to_sql` overload of its own, so that the
generic `to_sql` applies: an `int`, a `double`, a `std::string`, `nullptr`, or a
`std::optional` (absent, or present with a value). -/
inductive Host
  | int (v : Int)
  | double (d : Rat)
  | text (s : String)
  | nullptr
  | absent
  | present (v : Host)

/-- The implicit conversion of a `double` to `int`: truncation toward zero.  (The conversion
is undefined when the truncated value does not fit an `int`; that lies outside the embedding.) -/
def double_to_int (d : Rat) : Int := d.num.tdiv d.den

/-- Overload resolution of the call `stmt.bind_impl(idx, value)` in the generic `to_sql`: the
argument received by the selected overload, or `none` when no overload is viable and the call
is ill-formed.  An `int` selects `bind_impl(int, int)`, and so does a `double`, through the
implicit floating-integral conversion; a `std::string` selects
`bind_impl(int, const std::string &)`; `nullptr` selects `bind_impl(int, const std::nullptr_t &)`;
a `std::optional` converts implicitly to none of `int`, `std::string`, `std::nullptr_t`. -/
def bind_impl_overload : Host → Option Scalar
  | Host.int v => some (Scalar.int v)
  | Host.double d => some (Scalar.int (double_to_int d))
  | Host.text s => some (Scalar.text s)
  | Host.nullptr => some Scalar.null
  | Host.absent => none
  | Host.present _ => none

/-- The sequential `bind(value)` of such a C++ value; `none` when the call is ill-formed. -/
def statement.bind_host (st : statement) (value : Host) : Option Outcome :=
  (bind_impl_overload value).map (fun s => st.bind (Arg.scalar s))

/-! ## Auxiliary definitions used to state the properties -/

mutual
/-- The scalar leaves of an argument, left to right. -/
def Arg.leaves : Arg → List Scalar
  | Arg.scalar s => [s]
  | Arg.pair first second => first.leaves ++ second.leaves
  | Arg.tuple args => leaves_each args
/-- The scalar leaves of a list of arguments, left to right. -/
def leaves_each : List Arg → List Scalar
  | [] => []
  | a :: rest => a.leaves ++ leaves_each rest
end

/-- The statement with the engine positioned on row `r`: what `get` reads from after a
`step()` that delivered `r`. -/
def statement.on_row (st : statement) (r : Row) : statement :=
  { st with m_stmt := { st.m_stmt with current := r } }

/-- The engine statement after receiving the bind calls `calls` one after the other. -/
def bind_all (e : sqlite3_stmt) (calls : List (Int × Scalar)) : sqlite3_stmt :=
  calls.foldl (fun acc p => (sqlite3_bind acc p.1 p.2).2) e

/-- The values `vs` paired with the consecutive parameter indices `c`, `c + 1`, ... -/
def positions (c : Int) : List Scalar → List (Int × Scalar)
  | [] => []
  | v :: vs => (c, v) :: positions (c + 1) vs

/-- An operation a caller can perform on a statement object that touches the cursor. -/
inductive Op
  | bind (value : Arg)
  | bind_at (idx : Int) (value : Arg)
  | bind_named (col : String) (value : Arg)
  | decrement_next
  | reset
  | move

/-- The statement object after the operation, whether it returned or threw. -/
def Op.apply : Op → statement → statement
  | Op.bind value, st => (st.bind value).st
  | Op.bind_at idx value, st => (st.bind_at idx value).st
  | Op.bind_named col value, st => (st.bind_named col value).st
  | Op.decrement_next, st => st.decrement_next
  | Op.reset, st => st.reset.st
  | Op.move, st => statement.move st

/-- The statement object after a sequence of operations, performed left to right. -/
def run (ops : List Op) (st : statement) : statement :=
  ops.foldl (fun s op => op.apply s) st

/-! ## Engine behaviour assumed for `SELECT ?, ?, ...` -/

/-- Fundamental datatype tag `SQLITE_INTEGER` of `sqlite3.h`. -/
def SQLITE_INTEGER : Int := 1

/-- Fundamental datatype tag `SQLITE_TEXT` of `sqlite3.h`. -/
def SQLITE_TEXT : Int := 3

/-- The C string found at a pointer to the bytes of `s` followed by a terminator: the
characters of `s` before its first NUL. -/
def c_str (s : String) : String :=
  String.mk (s.data.takeWhile (fun ch => ch ≠ Char.ofNat 0))

/-- The result row of a statement `SELECT ?, ?, ...` (sqlite3 documentation): column `j` is
parameter `j + 1`.  An unbound or NULL parameter has type `SQLITE_NULL` and reads as the
integer 0 and the double 0; an integer reads as itself through `sqlite3_column_int` and as
the same number through `sqlite3_column_double`; a text reads through `sqlite3_column_text`
as the C string at the returned pointer.  The conversions not listed are those of `other`. -/
def echo_row (other : Row) (bound : Int → Option Scalar) : Row :=
  { column_type := fun j =>
      match bound (j + 1) with
      | some (Scalar.int _) => SQLITE_INTEGER
      | some (Scalar.text _) => SQLITE_TEXT
      | _ => SQLITE_NULL
    column_int := fun j =>
      match bound (j + 1) with
      | some (Scalar.int v) => v
      | some (Scalar.text _) => other.column_int j
      | _ => 0
    column_double := fun j =>
      match bound (j + 1) with
      | some (Scalar.int v) => (v : Rat)
      | some (Scalar.text _) => other.column_double j
      | _ => 0
    column_text := fun j =>
      match bound (j + 1) with
      | some (Scalar.text s) => c_str s
      | _ => other.column_text j
    column_blob := fun j => other.column_blob j }

/-- The engine is about to execute a `SELECT ?, ?, ...` statement with the current bindings:
its result set is the one row echoing them. -/
def echo_select (other : Row) (st : statement) : statement :=
  { st with
    m_stmt := { st.m_stmt with pending := [StepEvent.row (echo_row other st.m_stmt.bound)] } }

/-- The round trip through a `SELECT ?, ?, ...` statement: bind `value` sequentially, step
once, decode `T` at column 0.  `none` when the bind throws or the step delivers no row. -/
def round_trip (other : Row) (st : statement) (value : Arg) (T : Ty) : Option Val :=
  match st.bind value with
  | Outcome.throw _ _ => none
  | Outcome.ok s =>
      match (echo_select other s).step with
      | (Except.ok true, s2) => some (s2.get T 0)
      | _ => none

/-- The round trip of a C++ value that reaches the generic `to_sql`; `none` also when the
bind is ill-formed. -/
def round_trip_host (other : Row) (st : statement) (value : Host) (T : Ty) : Option Val :=
  match bind_impl_overload value with
  | none => none
  | some s => round_trip other st (Arg.scalar s) T

/-! ## Sample engine data -/

/-- Result code `SQLITE_RANGE` of `sqlite3.h`: bind index out of range. -/
def SQLITE_RANGE : Int := 25

/-- A sample result row: column 1 holds NULL, the others hold non-null values. -/
def sample_row : Row :=
  { column_type := fun idx => if idx = 1 then SQLITE_NULL else 1
    column_int := fun idx => 10 * idx + 20
    column_double := fun idx => idx
    column_text := fun idx => if idx = 0 then "John" else "Doe"
    column_blob := fun _ => 0 }

/-- A second sample result row, without NULL columns. -/
def sample_row2 : Row :=
  { column_type := fun _ => 1
    column_int := fun idx => idx + 30
    column_double := fun idx => idx
    column_text := fun idx => if idx = 0 then "Jane" else "Doe"
    column_blob := fun _ => 0 }

/-- A sample engine statement with the three parameters `:first_name`, `:last_name`, `:age`
(indices 1 to 3), no bindings yet and an empty result set.  Binds outside 1..3 are refused
with `SQLITE_RANGE`. -/
def sample_stmt : sqlite3_stmt :=
  { bound := fun _ => none
    bind_calls := []
    bind_rc := fun idx _ => if 1 ≤ idx ∧ idx ≤ 3 then SQLITE_OK else SQLITE_RANGE
    parameter_index := fun col =>
      if col = ":first_name" then 1 else if col = ":last_name" then 2
      else if col = ":age" then 3 else 0
    pending := []
    current := sample_row
    column_count := 3
    reset_rc := SQLITE_OK
    clear_bindings_rc := SQLITE_OK }

/-- The sample statement about to deliver `sample_row` and then `sample_row2`. -/
def two_rows_stmt : sqlite3_stmt :=
  { sample_stmt with pending := [StepEvent.row sample_row, StepEvent.row sample_row2] }

/-- Result code `SQLITE_BUSY` of `sqlite3.h`: the database file is locked. -/
def SQLITE_BUSY : Int := 5

/-- The sample statement whose next `sqlite3_step` answers `SQLITE_BUSY`. -/
def step_busy_stmt : sqlite3_stmt :=
  { sample_stmt with pending := [StepEvent.code SQLITE_BUSY] }

/-- Result code `SQLITE_MISUSE` of `sqlite3.h`: the interface was used out of order. -/
def SQLITE_MISUSE : Int := 21

/-- The sample statement in a state in which the engine refuses every bind with
`SQLITE_MISUSE`. -/
def misuse_stmt : sqlite3_stmt :=
  { sample_stmt with bind_rc := fun _ _ => SQLITE_MISUSE }

/-- The sample statement with parameters 1 and 2 already bound. -/
def bound_stmt : sqlite3_stmt :=
  { sample_stmt with
    bound := fun idx =>
      if idx = 1 then some (Scalar.text "Jane") else if idx = 2 then some (Scalar.int 30)
      else none
    bind_calls := [(1, Scalar.text "Jane"), (2, Scalar.int 30)] }

/-- A freshly prepared `SELECT ?`: one parameter, one column, nothing bound. -/
def select_one_stmt : sqlite3_stmt :=
  { sample_stmt with
    bind_rc := fun idx _ => if idx = 1 then SQLITE_OK else SQLITE_RANGE
    parameter_index := fun _ => 0
    column_count := 1 }

/-- The callback of the example program: add the `int` argument to the running total. -/
def add_age (args : List Val) (total : Int) : Int :=
  match args with
  | [Val.int age] => total + age
  | _ => total

/-- A connection on which every SQL text compiles to the sample statement. -/
def sample_db : database :=
  { m_db := fun _ => (SQLITE_OK, sample_stmt) }

/-! ## Lemmas on binding -/

theorem check_ok : check SQLITE_OK = none := by decide

/-- One step of the tuple fold is a call of the sequential `bind`. -/
theorem bind_each_cons (a : Arg) (rest : List Arg) (st : statement) :
    bind_each (a :: rest) st =
      match st.bind a with
      | Outcome.throw e s => Outcome.throw e s
      | Outcome.ok s => bind_each rest s := by
  rw [bind_each]; rfl

/-- The pair overload of `to_sql` is `decrement_next` followed by two sequential binds. -/
theorem to_sql_pair (a b : Arg) (idx : Int) (st : statement) :
    to_sql (Arg.pair a b) idx st =
      match st.decrement_next.bind a with
      | Outcome.throw e s => Outcome.throw e s
      | Outcome.ok s => s.bind b := by
  rw [to_sql]; rfl

theorem bind_scalar_eq (st : statement) (v : Scalar) :
    st.bind (Arg.scalar v) = st.post_increment.bind_impl st.m_bind_idx v := by
  simp [statement.bind, statement.bind_at, to_sql]

theorem bind_impl_st (st : statement) (idx : Int) (v : Scalar) :
    (st.bind_impl idx v).st = { st with m_stmt := (sqlite3_bind st.m_stmt idx v).2 } := by
  unfold statement.bind_impl
  split <;> rfl

theorem bind_impl_accept (st : statement) (idx : Int) (v : Scalar)
    (h : st.m_stmt.bind_rc idx v = SQLITE_OK) :
    st.bind_impl idx v =
      Outcome.ok
        { m_stmt :=
            { st.m_stmt with
              bound := Function.update st.m_stmt.bound idx (some v)
              bind_calls := st.m_stmt.bind_calls ++ [(idx, v)] }
          m_bind_idx := st.m_bind_idx } := by
  have h1 : (sqlite3_bind st.m_stmt idx v).1 = SQLITE_OK := h
  simp [statement.bind_impl, h1, check_ok, sqlite3_bind, h]

theorem sqlite3_bind_bound_other (e : sqlite3_stmt) (idx : Int) (v : Scalar) (j : Int)
    (hj : j ≠ idx) : (sqlite3_bind e idx v).2.bound j = e.bound j := by
  simp only [sqlite3_bind]
  split
  · exact Function.update_noteq hj _ _
  · rfl

theorem bind_all_bind_calls (calls : List (Int × Scalar)) (e : sqlite3_stmt) :
    (bind_all e calls).bind_calls = e.bind_calls ++ calls := by
  induction calls generalizing e with
  | nil => simp [bind_all]
  | cons p ps ih =>
      simp only [bind_all, List.foldl_cons] at ih ⊢
      rw [ih]; simp [sqlite3_bind]

theorem bind_all_bound_other (calls : List (Int × Scalar)) (e : sqlite3_stmt) (j : Int)
    (hj : ∀ p ∈ calls, p.1 ≠ j) : (bind_all e calls).bound j = e.bound j := by
  induction calls generalizing e with
  | nil => rfl
  | cons p ps ih =>
      simp only [bind_all, List.foldl_cons] at ih ⊢
      rw [ih _ (fun q hq => hj q (List.mem_cons_of_mem _ hq))]
      exact sqlite3_bind_bound_other e p.1 p.2 j (Ne.symm (hj p (List.mem_cons_self _ _)))

theorem positions_fst_ge (vs : List Scalar) (c : Int) :
    ∀ p ∈ positions c vs, c ≤ p.1 ∧ p.1 < c + vs.length := by
  induction vs generalizing c with
  | nil => intro p hp; simp [positions] at hp
  | cons v vs ih =>
      intro p hp
      simp only [positions, List.mem_cons] at hp
      rcases hp with rfl | hp
      · simp
      · have := ih (c + 1) p hp
        simp only [List.length_cons, Nat.cast_add, Nat.cast_one]
        omega

theorem positions_eq_enum (vs : List Scalar) (c : Int) :
    positions c vs = vs.enum.map (fun p => (c + (p.1 : Int), p.2)) := by
  induction vs generalizing c with
  | nil => rfl
  | cons v vs ih =>
      simp only [positions, List.enum_cons, List.map_cons, Nat.cast_zero, add_zero]
      rw [ih, List.enumFrom_eq_map_enum]
      simp [List.enum, Function.comp, add_assoc, add_comm]
      intros; omega

/-- Sequentially binding scalars that the engine accepts issues one engine call per value,
at consecutive indices from the cursor, and advances the cursor by their number. -/
theorem bind_each_scalars (vs : List Scalar) (st : statement)
    (haccept : ∀ p ∈ positions st.m_bind_idx vs, st.m_stmt.bind_rc p.1 p.2 = SQLITE_OK) :
    bind_each (vs.map Arg.scalar) st =
      Outcome.ok { m_stmt := bind_all st.m_stmt (positions st.m_bind_idx vs),
                   m_bind_idx := st.m_bind_idx + vs.length } := by
  induction vs generalizing st with
  | nil => simp [bind_each, bind_all, positions]
  | cons v vs ih =>
      have hv : st.m_stmt.bind_rc st.m_bind_idx v = SQLITE_OK :=
        haccept (st.m_bind_idx, v) (by simp [positions])
      rw [List.map_cons, bind_each_cons, bind_scalar_eq,
        bind_impl_accept st.post_increment st.m_bind_idx v hv]
      simp only
      rw [ih]
      · simp only [positions, bind_all, statement.post_increment, List.foldl_cons,
          List.length_cons, Nat.cast_add, Nat.cast_one, Outcome.ok.injEq, statement.mk.injEq,
          sqlite3_bind, hv, if_true]
        exact ⟨trivial, by omega⟩
      · intro p hp
        exact haccept p (by simp only [positions, List.mem_cons]; exact Or.inr hp)

theorem bind_all_positions_bound (vs : List Scalar) (e : sqlite3_stmt) (c : Int)
    (haccept : ∀ p ∈ positions c vs, e.bind_rc p.1 p.2 = SQLITE_OK)
    (i : Nat) (v : Scalar) (hi : vs[i]? = some v) :
    (bind_all e (positions c vs)).bound (c + i) = some v := by
  induction vs generalizing e c i with
  | nil => simp at hi
  | cons w ws ih =>
      have hw : e.bind_rc c w = SQLITE_OK := haccept (c, w) (by simp [positions])
      have hrest : ∀ p ∈ positions (c + 1) ws,
          (sqlite3_bind e c w).2.bind_rc p.1 p.2 = SQLITE_OK :=
        fun p hp => haccept p (by simp only [positions, List.mem_cons]; exact Or.inr hp)
      cases i with
      | zero =>
          simp only [List.getElem?_cons_zero, Option.some.injEq] at hi
          subst hi
          simp only [positions, bind_all, List.foldl_cons, Nat.cast_zero, add_zero]
          have := bind_all_bound_other (positions (c + 1) ws) (sqlite3_bind e c w).2 c
            (fun p hp => by have := (positions_fst_ge ws (c + 1) p hp).1; omega)
          simp only [bind_all] at this
          rw [this]
          simp [sqlite3_bind, hw]
      | succ n =>
          simp only [List.getElem?_cons_succ] at hi
          have := ih (sqlite3_bind e c w).2 (c + 1) hrest n hi
          simp only [positions, bind_all, List.foldl_cons] at this ⊢
          rw [show c + ((n + 1 : Nat) : Int) = c + 1 + (n : Int) by push_cast; ring]
          exact this

theorem bind_pair_eq_tuple (st : statement) (a b : Arg) :
    st.bind (Arg.pair a b) = st.bind (Arg.tuple [a, b]) := by
  simp only [statement.bind, statement.bind_at, to_sql, bind_each]
  split
  · rfl
  · split <;> simp_all [bind_each]

/-! ## Binding: the claims -/

/-- Claim C1 (tuple encode unrolling).  Let the cursor be `c ≥ 1` and let the engine accept
the binds concerned.  The sequential `bind` of a tuple of `n` scalars returns normally, issues
exactly the `n` engine binds `(c + i, vs[i])` for `i = 0 .. n-1` in this order, leaves slot
`c + i` holding component `i`, leaves the slots outside `c .. c+n-1` as they were, and leaves
the cursor at `c + n`.  A pair is bound exactly like the tuple of its two components. -/
theorem bind_tuple_unrolls (st : statement) (vs : List Scalar) (c : Int)
    (hcur : st.m_bind_idx = c) (hc : 1 ≤ c)
    (haccept : ∀ (i : Nat) (v : Scalar), vs[i]? = some v →
      st.m_stmt.bind_rc (c + i) v = SQLITE_OK) :
    (∃ st', st.bind (Arg.tuple (vs.map Arg.scalar)) = Outcome.ok st' ∧
      st'.m_stmt.bind_calls =
        st.m_stmt.bind_calls ++ vs.enum.map (fun p => (c + (p.1 : Int), p.2)) ∧
      (∀ (i : Nat) (v : Scalar), vs[i]? = some v → st'.m_stmt.bound (c + i) = some v) ∧
      (∀ j : Int, j < c ∨ c + vs.length ≤ j → st'.m_stmt.bound j = st.m_stmt.bound j) ∧
      st'.m_bind_idx = c + vs.length) ∧
    (∀ a b : Arg, st.bind (Arg.pair a b) = st.bind (Arg.tuple [a, b])) := by
  subst hcur
  refine ⟨?_, bind_pair_eq_tuple st⟩
  have hdec : st.post_increment.decrement_next = st := by
    cases st with
    | mk e c =>
        simp only [statement.post_increment, statement.decrement_next,
          add_sub_cancel_right] at hc ⊢
        rw [max_eq_left hc]
  have hacc : ∀ p ∈ positions st.m_bind_idx vs, st.m_stmt.bind_rc p.1 p.2 = SQLITE_OK := by
    intro p hp
    rw [positions_eq_enum] at hp
    obtain ⟨q, hq, rfl⟩ := List.mem_map.1 hp
    obtain ⟨i, v⟩ := q
    exact haccept i v (List.mk_mem_enum_iff_getElem?.1 hq)
  refine ⟨⟨bind_all st.m_stmt (positions st.m_bind_idx vs), st.m_bind_idx + vs.length⟩,
    ?_, ?_, ?_, ?_, ?_⟩
  · show bind_each (vs.map Arg.scalar) st.post_increment.decrement_next = _
    rw [hdec, bind_each_scalars vs st hacc]
  · simp only [bind_all_bind_calls, positions_eq_enum]
  · intro i v hi
    exact bind_all_positions_bound vs st.m_stmt st.m_bind_idx hacc i v hi
  · intro j hj
    apply bind_all_bound_other
    intro p hp
    have := positions_fst_ge vs st.m_bind_idx p hp
    omega
  · rfl

/-- Claim C1 at the tuple `("Other", "Doe", 10)` of the example program, cursor 1. -/
theorem bind_tuple_unrolls_witness :
    (statement.mk sample_stmt 1).m_bind_idx = 1 ∧ (1 : Int) ≤ 1 ∧
    ((∃ st', (statement.mk sample_stmt 1).bind
        (Arg.tuple ([Scalar.text "Other", Scalar.text "Doe", Scalar.int 10].map Arg.scalar)) =
          Outcome.ok st' ∧
      st'.m_stmt.bind_calls =
        sample_stmt.bind_calls ++
          [Scalar.text "Other", Scalar.text "Doe", Scalar.int 10].enum.map
            (fun p => ((1 : Int) + (p.1 : Int), p.2)) ∧
      (∀ (i : Nat) (v : Scalar),
        [Scalar.text "Other", Scalar.text "Doe", Scalar.int 10][i]? = some v →
          st'.m_stmt.bound (1 + i) = some v) ∧
      (∀ j : Int,
        j < 1 ∨ 1 + ([Scalar.text "Other", Scalar.text "Doe", Scalar.int 10].length : Int) ≤ j →
          st'.m_stmt.bound j = sample_stmt.bound j) ∧
      st'.m_bind_idx =
        1 + ([Scalar.text "Other", Scalar.text "Doe", Scalar.int 10].length : Int)) ∧
    (∀ a b : Arg, (statement.mk sample_stmt 1).bind (Arg.pair a b) =
      (statement.mk sample_stmt 1).bind (Arg.tuple [a, b]))) :=
  ⟨rfl, by decide,
   bind_tuple_unrolls (statement.mk sample_stmt 1)
     [Scalar.text "Other", Scalar.text "Doe", Scalar.int 10] 1 rfl (by decide)
     (by
       intro i v hi
       have hlt : i < 3 := by
         rcases Nat.lt_or_ge i 3 with h | h
         · exact h
         · rw [List.getElem?_eq_none (by simpa using h)] at hi
           cases hi
       have h1 : (1 : Int) ≤ 1 + (i : Int) := by omega
       have h2 : 1 + (i : Int) ≤ 3 := by omega
       simp [sample_stmt, h1, h2])⟩

/-- Claim C2 (sequential scalar bind).  With the cursor at `c`, `bind(v)` issues the single
engine bind `(c, v)`, leaves every slot other than `c` unchanged and leaves the cursor at
`c + 1`; when the engine accepts the bind it returns normally and slot `c` holds `v`, the
rest of the statement being untouched. -/
theorem bind_scalar_sequential (st : statement) (v : Scalar) (c : Int)
    (hcur : st.m_bind_idx = c) :
    (st.bind (Arg.scalar v)).st.m_bind_idx = c + 1 ∧
    (st.bind (Arg.scalar v)).st.m_stmt.bind_calls = st.m_stmt.bind_calls ++ [(c, v)] ∧
    (∀ j : Int, j ≠ c → (st.bind (Arg.scalar v)).st.m_stmt.bound j = st.m_stmt.bound j) ∧
    (st.m_stmt.bind_rc c v = SQLITE_OK →
      st.bind (Arg.scalar v) =
        Outcome.ok
          { m_stmt :=
              { st.m_stmt with
                bound := Function.update st.m_stmt.bound c (some v)
                bind_calls := st.m_stmt.bind_calls ++ [(c, v)] }
            m_bind_idx := c + 1 }) := by
  subst hcur
  rw [bind_scalar_eq]
  refine ⟨?_, ?_, ?_, ?_⟩
  · rw [bind_impl_st]; rfl
  · rw [bind_impl_st]; rfl
  · intro j hj
    rw [bind_impl_st]
    exact sqlite3_bind_bound_other st.m_stmt st.m_bind_idx v j hj
  · intro haccept
    rw [bind_impl_accept st.post_increment _ _ haccept]
    rfl

/-- Claim C2 at cursor 2 of the sample statement, binding the integer 20. -/
theorem bind_scalar_sequential_witness :
    (statement.mk sample_stmt 2).m_bind_idx = 2 ∧
    sample_stmt.bind_rc 2 (Scalar.int 20) = SQLITE_OK ∧
    (statement.mk sample_stmt 2).bind (Arg.scalar (Scalar.int 20)) =
      Outcome.ok
        { m_stmt :=
            { sample_stmt with
              bound := Function.update sample_stmt.bound 2 (some (Scalar.int 20))
              bind_calls := sample_stmt.bind_calls ++ [(2, Scalar.int 20)] }
          m_bind_idx := 2 + 1 } ∧
    ((statement.mk sample_stmt 2).bind (Arg.scalar (Scalar.int 20))).st.m_stmt.bound 1 =
      sample_stmt.bound 1 :=
  ⟨rfl, by decide,
   (bind_scalar_sequential (statement.mk sample_stmt 2) (Scalar.int 20) 2 rfl).2.2.2
     (by decide),
   (bind_scalar_sequential (statement.mk sample_stmt 2) (Scalar.int 20) 2 rfl).2.2.1 1
     (by decide)⟩

/-- Claim C3 (named-bind resolution).  Let the engine resolve `col` to `r`.  If `r ≠ 0` and
the engine accepts the bind, `bind(col, v)` returns normally with `v` in slot `r`, the single
engine bind `(r, v)` issued and the cursor at `r + 1`.  If `r = 0`, `bind(col, v)` returns
normally and the statement (bindings and cursor) is unchanged. -/
theorem bind_named_resolution (st : statement) (col : String) (v : Scalar) (r : Int)
    (hres : sqlite3_bind_parameter_index st.m_stmt col = r) :
    (r ≠ 0 → st.m_stmt.bind_rc r v = SQLITE_OK →
      st.bind_named col (Arg.scalar v) =
        Outcome.ok
          { m_stmt :=
              { st.m_stmt with
                bound := Function.update st.m_stmt.bound r (some v)
                bind_calls := st.m_stmt.bind_calls ++ [(r, v)] }
            m_bind_idx := r + 1 }) ∧
    (r = 0 → st.bind_named col (Arg.scalar v) = Outcome.ok st) := by
  subst hres
  constructor
  · intro hr haccept
    unfold statement.bind_named
    rw [if_pos hr]
    simp only [statement.bind_at, to_sql]
    rw [bind_impl_accept st _ v haccept]
  · intro hr
    unfold statement.bind_named
    rw [if_neg (not_not.2 hr)]

/-- Claim C3 at the present name `:last_name` (index 2) and the absent name `:nickname`. -/
theorem bind_named_resolution_witness :
    (sqlite3_bind_parameter_index sample_stmt ":last_name" = 2 ∧ (2 : Int) ≠ 0 ∧
      sample_stmt.bind_rc 2 (Scalar.text "Doe") = SQLITE_OK ∧
      (statement.mk sample_stmt 1).bind_named ":last_name" (Arg.scalar (Scalar.text "Doe")) =
        Outcome.ok
          { m_stmt :=
              { sample_stmt with
                bound := Function.update sample_stmt.bound 2 (some (Scalar.text "Doe"))
                bind_calls := sample_stmt.bind_calls ++ [(2, Scalar.text "Doe")] }
            m_bind_idx := 2 + 1 }) ∧
    (sqlite3_bind_parameter_index sample_stmt ":nickname" = 0 ∧
      (statement.mk sample_stmt 1).bind_named ":nickname" (Arg.scalar (Scalar.text "Jo")) =
        Outcome.ok (statement.mk sample_stmt 1)) :=
  ⟨⟨by decide, by decide, by decide,
    (bind_named_resolution (statement.mk sample_stmt 1) ":last_name" (Scalar.text "Doe") 2
      (by decide)).1 (by decide) (by decide)⟩,
   ⟨by decide,
    (bind_named_resolution (statement.mk sample_stmt 1) ":nickname" (Scalar.text "Jo") 0
      (by decide)).2 rfl⟩⟩

/-- Claim C10 (explicit-index bind).  With the cursor at `c`, `bind(i, v)` issues the single
engine bind `(i, v)`, leaves every slot other than `i` unchanged and leaves the cursor equal
to `c`; when the engine accepts the bind it returns normally and slot `i` holds `v`, the rest
of the statement being untouched. -/
theorem bind_at_scalar_frame (st : statement) (i : Int) (v : Scalar) (c : Int)
    (hcur : st.m_bind_idx = c) :
    (st.bind_at i (Arg.scalar v)).st.m_bind_idx = c ∧
    (st.bind_at i (Arg.scalar v)).st.m_stmt.bind_calls = st.m_stmt.bind_calls ++ [(i, v)] ∧
    (∀ j : Int, j ≠ i → (st.bind_at i (Arg.scalar v)).st.m_stmt.bound j = st.m_stmt.bound j) ∧
    (st.m_stmt.bind_rc i v = SQLITE_OK →
      st.bind_at i (Arg.scalar v) =
        Outcome.ok
          { m_stmt :=
              { st.m_stmt with
                bound := Function.update st.m_stmt.bound i (some v)
                bind_calls := st.m_stmt.bind_calls ++ [(i, v)] }
            m_bind_idx := c }) := by
  subst hcur
  simp only [statement.bind_at, to_sql]
  refine ⟨?_, ?_, ?_, ?_⟩
  · rw [bind_impl_st]
  · rw [bind_impl_st]; rfl
  · intro j hj
    rw [bind_impl_st]
    exact sqlite3_bind_bound_other st.m_stmt i v j hj
  · intro haccept
    rw [bind_impl_accept st _ _ haccept]

/-- Claim C10 at index 3 of the sample statement with the cursor at 1. -/
theorem bind_at_scalar_frame_witness :
    (statement.mk sample_stmt 1).m_bind_idx = 1 ∧
    sample_stmt.bind_rc 3 (Scalar.text "Doe") = SQLITE_OK ∧
    (statement.mk sample_stmt 1).bind_at 3 (Arg.scalar (Scalar.text "Doe")) =
      Outcome.ok
        { m_stmt :=
            { sample_stmt with
              bound := Function.update sample_stmt.bound 3 (some (Scalar.text "Doe"))
              bind_calls := sample_stmt.bind_calls ++ [(3, Scalar.text "Doe")] }
          m_bind_idx := 1 } ∧
    ((statement.mk sample_stmt 1).bind_at 3 (Arg.scalar (Scalar.text "Doe"))).st.m_stmt.bound 2 =
      sample_stmt.bound 2 :=
  ⟨rfl, by decide,
   (bind_at_scalar_frame (statement.mk sample_stmt 1) 3 (Scalar.text "Doe") 1 rfl).2.2.2
     (by decide),
   (bind_at_scalar_frame (statement.mk sample_stmt 1) 3 (Scalar.text "Doe") 1 rfl).2.2.1 2
     (by decide)⟩

/-! ## Stepping -/

/-- What `step()` does with each result code of `sqlite3_step`. -/
theorem step_eq (st : statement) :
    st.step =
      (if (sqlite3_step st.m_stmt).1 = SQLITE_ROW then Except.ok true
       else if (sqlite3_step st.m_stmt).1 = SQLITE_DONE ∨ (sqlite3_step st.m_stmt).1 = SQLITE_OK
         then Except.ok false
       else Except.error (error.code (sqlite3_step st.m_stmt).1),
       { st with m_stmt := (sqlite3_step st.m_stmt).2 }) := by
  have hdr : SQLITE_DONE ≠ SQLITE_ROW := by decide
  have hor : SQLITE_OK ≠ SQLITE_ROW := by decide
  have hod : SQLITE_OK ≠ SQLITE_DONE := by decide
  unfold statement.step check
  by_cases h1 : (sqlite3_step st.m_stmt).1 = SQLITE_ROW
  · simp [h1]
  · by_cases h2 : (sqlite3_step st.m_stmt).1 = SQLITE_DONE
    · simp [h2, hdr]
    · by_cases h3 : (sqlite3_step st.m_stmt).1 = SQLITE_OK
      · simp [h3, hor, hod]
      · simp [h1, h2, h3]

theorem step_row (st : statement) (r : Row) (rest : List StepEvent)
    (h : st.m_stmt.pending = StepEvent.row r :: rest) :
    st.step =
      (Except.ok true,
       { st with m_stmt := { st.m_stmt with pending := rest, current := r } }) := by
  simp [statement.step, sqlite3_step, h]

theorem step_nil (st : statement) (h : st.m_stmt.pending = []) :
    st.step = (Except.ok false, st) := by
  simp [statement.step, sqlite3_step, h, SQLITE_DONE, SQLITE_ROW]

theorem step_state (st : statement) :
    st.step.2 = { st with m_stmt := (sqlite3_step st.m_stmt).2 } := by
  rw [step_eq]

/-- A `step()` consumes exactly one pending engine outcome (none when none is left). -/
theorem step_pending (st : statement) :
    st.step.2.m_stmt.pending = st.m_stmt.pending.tail := by
  rw [step_state]
  unfold sqlite3_step
  cases h : st.m_stmt.pending with
  | nil => simp [h]
  | cons ev rest => cases ev <;> simp

theorem step_error_code (st : statement) (e : error) (h : st.step.1 = Except.error e) :
    e = error.code (sqlite3_step st.m_stmt).1 := by
  rw [step_eq] at h
  simp only at h
  split at h
  · cases h
  · split at h
    · cases h
    · injection h with h; exact h.symm

/-- Claim C4 (`step()` outcome).  `sqlite3_step` answers `SQLITE_ROW`, `SQLITE_DONE` or an
error code, never `SQLITE_OK`.  For every such result code `res`, `step()` returns true when
`res` is `SQLITE_ROW`, returns false when `res` is `SQLITE_DONE`, and throws `error(res)` for
every other code; in all cases the statement has advanced by that one engine step. -/
theorem step_outcome (st : statement) (hcode : (sqlite3_step st.m_stmt).1 ≠ SQLITE_OK) :
    st.step =
      (if (sqlite3_step st.m_stmt).1 = SQLITE_ROW then Except.ok true
       else if (sqlite3_step st.m_stmt).1 = SQLITE_DONE then Except.ok false
       else Except.error (error.code (sqlite3_step st.m_stmt).1),
       { st with m_stmt := (sqlite3_step st.m_stmt).2 }) := by
  rw [step_eq]
  simp only [hcode, or_false]

/-- Claim C4 on a step that delivers a row, on one that finds the result set exhausted, and
on one that the engine refuses with `SQLITE_BUSY`. -/
theorem step_outcome_witness :
    ((sqlite3_step two_rows_stmt).1 ≠ SQLITE_OK ∧
      (statement.mk two_rows_stmt 1).step.1 = Except.ok true) ∧
    ((sqlite3_step sample_stmt).1 ≠ SQLITE_OK ∧
      (statement.mk sample_stmt 1).step.1 = Except.ok false) ∧
    ((sqlite3_step step_busy_stmt).1 ≠ SQLITE_OK ∧
      (statement.mk step_busy_stmt 1).step.1 = Except.error (error.code SQLITE_BUSY)) :=
  ⟨⟨by decide,
    (congrArg Prod.fst (step_outcome (statement.mk two_rows_stmt 1) (by decide))).trans
      (by decide)⟩,
   ⟨by decide,
    (congrArg Prod.fst (step_outcome (statement.mk sample_stmt 1) (by decide))).trans
      (by decide)⟩,
   ⟨by decide,
    (congrArg Prod.fst (step_outcome (statement.mk step_busy_stmt 1) (by decide))).trans
      (by decide)⟩⟩

/-! ## Decoding -/

mutual
/-- Decoding looks at the statement only through the current row. -/
theorem from_sql_current : ∀ (T : Ty) (idx : Int) (st st' : statement),
    st.m_stmt.current = st'.m_stmt.current → from_sql T idx st = from_sql T idx st'
  | Ty.scalar ScalarTy.text, idx, st, st', h => by
      simp [from_sql, statement.get_impl_s, h]
  | Ty.scalar ScalarTy.int, idx, st, st', h => by
      simp [from_sql, statement.get_impl_i, h]
  | Ty.scalar ScalarTy.double, idx, st, st', h => by
      simp [from_sql, statement.get_impl_d, h]
  | Ty.scalar ScalarTy.blob, idx, st, st', h => by
      simp [from_sql, statement.get_impl_blob, h]
  | Ty.tuple Ts, idx, st, st', h => by
      simp only [from_sql]
      rw [from_sql_each_current Ts idx st st' h]
  | Ty.pair T1 T2, idx, st, st', h => by
      simp only [from_sql]
      rw [from_sql_current T1 idx st st' h, from_sql_current T2 (idx + 1) st st' h]
  | Ty.optional T, idx, st, st', h => by
      simp only [from_sql, statement.column_type, h, from_sql_current T idx st st' h]
/-- The tuple fold looks at the statement only through the current row. -/
theorem from_sql_each_current : ∀ (Ts : List Ty) (idx : Int) (st st' : statement),
    st.m_stmt.current = st'.m_stmt.current → from_sql_each Ts idx st = from_sql_each Ts idx st'
  | [], idx, st, st', h => by simp [from_sql_each]
  | T :: Ts, idx, st, st', h => by
      simp only [from_sql_each]
      rw [from_sql_current T idx st st' h, from_sql_each_current Ts (idx + 1) st st' h]
end

theorem from_sql_scalar_reads (T : ScalarTy) (idx : Int) (st : statement) :
    (from_sql (Ty.scalar T) idx st).2 = [idx] := by
  cases T <;> simp [from_sql]

theorem from_sql_each_scalars (Ts : List ScalarTy) (k : Int) (st : statement) :
    from_sql_each (Ts.map Ty.scalar) k st =
      (Ts.enum.map (fun p => (from_sql (Ty.scalar p.2) (k + (p.1 : Int)) st).1),
       (List.range Ts.length).map (fun (i : Nat) => k + (i : Int))) := by
  induction Ts generalizing k with
  | nil => simp [from_sql_each]
  | cons T Ts ih =>
      simp only [List.map_cons, from_sql_each, ih, from_sql_scalar_reads, List.enum_cons,
        Nat.cast_zero, add_zero, List.length_cons, List.range_succ_eq_map, List.map_map,
        List.singleton_append, Prod.mk.injEq, List.cons.injEq, true_and]
      constructor
      · rw [List.enumFrom_eq_map_enum]
        simp only [List.map_map, List.enum]
        apply List.map_congr_left
        intro p _
        simp only [Function.comp, Prod.map, id, Nat.cast_add, Nat.cast_one]
        rw [show k + 1 + (p.1 : Int) = k + ((p.1 : Int) + 1) by ring]
      · apply List.map_congr_left
        intro i _
        simp only [Function.comp, Nat.cast_succ]
        ring

/-- Claim C7 (tuple column contiguity).  Decoding a tuple of `n` scalar types at index `k`
yields the tuple whose component `i` is the scalar read at column `k + i`, and the columns
handed to the engine are exactly `k, k+1, ..., k+n-1` in this order; a pair of scalar types
reads columns `k` and `k + 1`.  This holds for every statement, whatever its column count.
The scalar read at a column is the answer of the engine's reader of that type for that column
of the current row. -/
theorem tuple_decode_contiguous (Ts : List ScalarTy) (k : Int) (st : statement) :
    from_sql (Ty.tuple (Ts.map Ty.scalar)) k st =
      (Val.tuple (Ts.enum.map (fun p => (from_sql (Ty.scalar p.2) (k + (p.1 : Int)) st).1)),
       (List.range Ts.length).map (fun (i : Nat) => k + (i : Int))) ∧
    (∀ A B : ScalarTy,
      from_sql (Ty.pair (Ty.scalar A) (Ty.scalar B)) k st =
        (Val.pair (from_sql (Ty.scalar A) k st).1 (from_sql (Ty.scalar B) (k + 1) st).1,
         [k, k + 1])) ∧
    (∀ j : Int,
      from_sql (Ty.scalar ScalarTy.int) j st = (Val.int (st.m_stmt.current.column_int j), [j]) ∧
      from_sql (Ty.scalar ScalarTy.double) j st =
        (Val.double (st.m_stmt.current.column_double j), [j]) ∧
      from_sql (Ty.scalar ScalarTy.text) j st =
        (Val.text (st.m_stmt.current.column_text j), [j]) ∧
      from_sql (Ty.scalar ScalarTy.blob) j st =
        (Val.blob (st.m_stmt.current.column_blob j), [j])) := by
  refine ⟨?_, ?_, ?_⟩
  · simp only [from_sql, from_sql_each_scalars]
  · intro A B
    simp only [from_sql, from_sql_scalar_reads, List.singleton_append]
  · intro j
    simp only [from_sql, statement.get_impl_i, statement.get_impl_d, statement.get_impl_s,
      statement.get_impl_blob, and_self]

/-- Claim C8 (optional decode).  Decoding `optional<T>` at `idx` yields absent exactly when
`column_type(idx)` is `SQLITE_NULL`; otherwise it yields present of the value `T` decodes at
the same `idx`.  The type tag is read at `idx` first, then `T` reads from `idx`.  The tag is
the answer of the engine's `sqlite3_column_type` for column `idx` of the current row. -/
theorem optional_decode (T : Ty) (idx : Int) (st : statement) :
    ((from_sql (Ty.optional T) idx st).1 = Val.absent ↔ st.column_type idx = SQLITE_NULL) ∧
    (from_sql (Ty.optional T) idx st).1 =
      (if st.column_type idx = SQLITE_NULL then Val.absent
       else Val.present (from_sql T idx st).1) ∧
    (from_sql (Ty.optional T) idx st).2 =
      (if st.column_type idx = SQLITE_NULL then [idx] else idx :: (from_sql T idx st).2) ∧
    ((from_sql (Ty.optional T) idx st).1 = Val.absent ↔
      st.m_stmt.current.column_type idx = SQLITE_NULL) := by
  have hrow : st.column_type idx = st.m_stmt.current.column_type idx := rfl
  rw [← hrow]
  by_cases h : st.column_type idx = SQLITE_NULL <;> simp [from_sql, h]

/-! ## Fetching results -/

/-- The loop of `to(std::vector<T> &)`, one iteration unfolded. -/
theorem to_loop_eq (T : Ty) (out : List Val) (st : statement) :
    statement.to_loop T out st =
      match st.step with
      | (Except.ok true, s) => statement.to_loop T (out ++ [s.get T 0]) s
      | (Except.ok false, s) => (out, Outcome.ok s)
      | (Except.error e, s) => (out, Outcome.throw e s) := by
  rw [statement.to_loop]
  split <;> rename_i heq <;> rw [heq]

/-- On a result set of rows the loop appends the decoded rows in order and ends normally. -/
theorem to_loop_rows (T : Ty) (rows : List Row) (out : List Val) (st : statement)
    (h : st.m_stmt.pending = rows.map StepEvent.row) :
    (statement.to_loop T out st).1 = out ++ rows.map (fun r => (st.on_row r).get T 0) ∧
    (statement.to_loop T out st).2.raised = none ∧
    (statement.to_loop T out st).2.st.m_stmt.pending = [] ∧
    (statement.to_loop T out st).2.st.m_bind_idx = st.m_bind_idx := by
  induction rows generalizing out st with
  | nil =>
      rw [to_loop_eq, step_nil st h]
      simp [Outcome.raised, Outcome.st, h]
  | cons r rows ih =>
      rw [to_loop_eq, step_row st r _ h]
      simp only
      have := ih
        (out ++ [statement.get
          { st with m_stmt :=
              { st.m_stmt with pending := rows.map StepEvent.row, current := r } } T 0])
        { st with m_stmt :=
            { st.m_stmt with pending := rows.map StepEvent.row, current := r } } rfl
      obtain ⟨h1, h2, h3, h4⟩ := this
      refine ⟨?_, h2, h3, h4⟩
      rw [h1]
      simp only [List.map_cons, List.append_assoc, List.singleton_append, statement.get,
        statement.on_row]
      congr 2
      · exact congrArg Prod.fst (from_sql_current T 0 _ _ rfl)
      · apply List.map_congr_left
        intro r' _
        exact congrArg Prod.fst (from_sql_current T 0 _ _ rfl)

/-- Claim C5 (`to` into a sequence).  When the engine holds a result set of the rows `rows`
(any number, possibly none), `to(out)` leaves `out` equal to the list of the values decoded
at column 0 of each row, in row order, whatever `out` held before; it raises no error and
has consumed the whole result set.  With no rows, `out` is left empty. -/
theorem to_vector_rows (T : Ty) (st : statement) (rows : List Row) (out : List Val)
    (hrows : st.m_stmt.pending = rows.map StepEvent.row) :
    (st.to_vector T out).1 = rows.map (fun r => (st.on_row r).get T 0) ∧
    (st.to_vector T out).2.raised = none ∧
    (st.to_vector T out).2.st.m_stmt.pending = [] := by
  obtain ⟨h1, h2, h3, _⟩ := to_loop_rows T rows [] st hrows
  exact ⟨by simpa [statement.to_vector] using h1, h2, h3⟩

/-- Claim C5 on a two-row result set and on an empty one, the target holding `[7]` before. -/
theorem to_vector_rows_witness :
    ((statement.mk two_rows_stmt 1).m_stmt.pending = [sample_row, sample_row2].map StepEvent.row ∧
      ((statement.mk two_rows_stmt 1).to_vector (Ty.scalar ScalarTy.text) [Val.int 7]).1 =
        [Val.text "John", Val.text "Jane"]) ∧
    ((statement.mk sample_stmt 1).m_stmt.pending = ([] : List Row).map StepEvent.row ∧
      ((statement.mk sample_stmt 1).to_vector (Ty.scalar ScalarTy.text) [Val.int 7]).1 = [] ∧
      ((statement.mk sample_stmt 1).to_vector (Ty.scalar ScalarTy.text) [Val.int 7]).2.raised =
        none) :=
  ⟨⟨rfl, (to_vector_rows (Ty.scalar ScalarTy.text) (statement.mk two_rows_stmt 1)
      [sample_row, sample_row2] [Val.int 7] rfl).1⟩,
   ⟨rfl,
    (to_vector_rows (Ty.scalar ScalarTy.text) (statement.mk sample_stmt 1) [] [Val.int 7] rfl).1,
    (to_vector_rows (Ty.scalar ScalarTy.text) (statement.mk sample_stmt 1) [] [Val.int 7]
      rfl).2.1⟩⟩

/-- Claim C6 (`to` into a single value).  `to(out)` leaves the statement exactly as one
`step()` leaves it, so one pending engine outcome is consumed and later rows are not; it
raises the no-row error exactly when that step returns false, and then `out` is unchanged;
when the step delivers a row `r`, it returns normally with `out` equal to the value decoded
at column 0 of `r`. -/
theorem to_value_single_step (st : statement) (T : Ty) (out : Val) :
    (st.to_value T out).2.st = st.step.2 ∧
    (st.to_value T out).2.st.m_stmt.pending = st.m_stmt.pending.tail ∧
    ((st.to_value T out).2.raised = some no_row ↔ st.step.1 = Except.ok false) ∧
    (st.step.1 = Except.ok false → (st.to_value T out).1 = out) ∧
    (∀ (r : Row) (rest : List StepEvent), st.m_stmt.pending = StepEvent.row r :: rest →
      st.to_value T out =
        ((st.on_row r).get T 0,
         Outcome.ok { st with m_stmt := { st.m_stmt with pending := rest, current := r } })) := by
  have hst : (st.to_value T out).2.st = st.step.2 := by
    unfold statement.to_value
    split <;> rename_i heq <;> simp [heq, Outcome.st]
  refine ⟨hst, by rw [hst, step_pending], ?_, ?_, ?_⟩
  · unfold statement.to_value
    split <;> rename_i heq
    · simp [heq, Outcome.raised]
    · rename_i e s
      have he := step_error_code st e (by rw [heq])
      simp [heq, Outcome.raised, he, no_row]
    · simp [heq, Outcome.raised]
  · intro h
    unfold statement.to_value
    split <;> rename_i heq
    · rfl
    · rfl
    · rw [heq] at h; cases h
  · intro r rest h
    unfold statement.to_value
    rw [step_row st r rest h]
    simp only [statement.get, statement.on_row]
    congr 1
    exact congrArg Prod.fst (from_sql_current T 0 _ _ rfl)

/-- Claim C6 on a two-row result set (the second row stays pending) and on an empty one. -/
theorem to_value_single_step_witness :
    (two_rows_stmt.pending = StepEvent.row sample_row :: [StepEvent.row sample_row2] ∧
      (statement.mk two_rows_stmt 1).to_value (Ty.scalar ScalarTy.int) (Val.int 7) =
        (Val.int 20,
         Outcome.ok
          (statement.mk
            { two_rows_stmt with pending := [StepEvent.row sample_row2], current := sample_row }
            1))) ∧
    ((statement.mk sample_stmt 1).step.1 = Except.ok false ∧
      ((statement.mk sample_stmt 1).to_value (Ty.scalar ScalarTy.int) (Val.int 7)).1 = Val.int 7 ∧
      ((statement.mk sample_stmt 1).to_value (Ty.scalar ScalarTy.int) (Val.int 7)).2.raised =
        some no_row) :=
  ⟨⟨rfl, (to_value_single_step (statement.mk two_rows_stmt 1) (Ty.scalar ScalarTy.int)
      (Val.int 7)).2.2.2.2 sample_row [StepEvent.row sample_row2] rfl⟩,
   by decide,
   (to_value_single_step (statement.mk sample_stmt 1) (Ty.scalar ScalarTy.int)
     (Val.int 7)).2.2.2.1 (by decide),
   (to_value_single_step (statement.mk sample_stmt 1) (Ty.scalar ScalarTy.int)
     (Val.int 7)).2.2.1.2 (by decide)⟩

/-! ## The cursor never drops below 1 -/

mutual
/-- Encoding any argument keeps the cursor at or above 1 and the engine's name table as it
was, whether the call returns or throws. -/
theorem to_sql_keeps : ∀ (value : Arg) (idx : Int) (st : statement), 1 ≤ st.m_bind_idx →
    1 ≤ (to_sql value idx st).st.m_bind_idx ∧
    (to_sql value idx st).st.m_stmt.parameter_index = st.m_stmt.parameter_index
  | Arg.scalar v, idx, st, h => by
      simp only [to_sql, bind_impl_st]
      exact ⟨h, rfl⟩
  | Arg.pair first second, idx, st, _ => by
      have h0 : (1 : Int) ≤ st.decrement_next.post_increment.m_bind_idx := by
        simp only [statement.post_increment, statement.decrement_next]
        have := le_max_right (st.m_bind_idx - 1) 1
        omega
      have h1 :=
        to_sql_keeps first st.decrement_next.m_bind_idx st.decrement_next.post_increment h0
      simp only [to_sql]
      split
      · rename_i e s heq
        rw [heq] at h1
        exact h1
      · rename_i s heq
        rw [heq] at h1
        have hs : (1 : Int) ≤ s.post_increment.m_bind_idx := by
          have := h1.1
          simp only [Outcome.st] at this
          simp only [statement.post_increment]
          omega
        have h2 := to_sql_keeps second s.m_bind_idx s.post_increment hs
        exact ⟨h2.1, h2.2.trans h1.2⟩
  | Arg.tuple args, idx, st, _ => by
      simp only [to_sql]
      exact bind_each_keeps args st.decrement_next (le_max_right _ _)
/-- The tuple fold keeps the cursor at or above 1 and the engine's name table as it was. -/
theorem bind_each_keeps : ∀ (args : List Arg) (st : statement), 1 ≤ st.m_bind_idx →
    1 ≤ (bind_each args st).st.m_bind_idx ∧
    (bind_each args st).st.m_stmt.parameter_index = st.m_stmt.parameter_index
  | [], st, h => by
      rw [bind_each]
      exact ⟨h, rfl⟩
  | a :: rest, st, h => by
      have h0 : (1 : Int) ≤ st.post_increment.m_bind_idx := by
        simp only [statement.post_increment]
        omega
      have h1 := to_sql_keeps a st.m_bind_idx st.post_increment h0
      simp only [bind_each]
      split
      · rename_i e s heq
        rw [heq] at h1
        exact h1
      · rename_i s heq
        rw [heq] at h1
        have h2 := bind_each_keeps rest s h1.1
        exact ⟨h2.1, h2.2.trans h1.2⟩
end

/-- Each operation keeps the cursor at or above 1, provided names resolve to indices `≥ 0`. -/
theorem apply_keeps (op : Op) (st : statement) (h : 1 ≤ st.m_bind_idx)
    (hnames : ∀ col, 0 ≤ st.m_stmt.parameter_index col) :
    1 ≤ (op.apply st).m_bind_idx ∧
    (op.apply st).m_stmt.parameter_index = st.m_stmt.parameter_index := by
  cases op with
  | bind value =>
      have h0 : (1 : Int) ≤ st.post_increment.m_bind_idx := by
        simp only [statement.post_increment]
        omega
      exact to_sql_keeps value st.m_bind_idx st.post_increment h0
  | bind_at idx value => exact to_sql_keeps value idx st h
  | bind_named col value =>
      simp only [Op.apply, statement.bind_named, sqlite3_bind_parameter_index]
      split
      · rename_i hne
        have h1 := to_sql_keeps value (st.m_stmt.parameter_index col) st h
        simp only [statement.bind_at]
        split
        · rename_i e s heq
          rw [heq] at h1
          exact h1
        · rename_i s heq
          rw [heq] at h1
          refine ⟨?_, h1.2⟩
          have := hnames col
          simp only [Outcome.st]
          omega
      · exact ⟨h, rfl⟩
  | decrement_next => exact ⟨le_max_right _ _, rfl⟩
  | reset =>
      simp only [Op.apply, statement.reset, sqlite3_reset, sqlite3_clear_bindings]
      split
      · exact ⟨h, rfl⟩
      · split
        · refine ⟨h, ?_⟩
          simp only [Outcome.st]
          split <;> rfl
        · refine ⟨le_refl _, ?_⟩
          simp only [Outcome.st]
          split <;> rfl
  | move => exact ⟨h, rfl⟩

theorem run_keeps (ops : List Op) (st : statement) (h : 1 ≤ st.m_bind_idx)
    (hnames : ∀ col, 0 ≤ st.m_stmt.parameter_index col) :
    1 ≤ (run ops st).m_bind_idx := by
  induction ops generalizing st with
  | nil => exact h
  | cons op ops ih =>
      have h1 := apply_keeps op st h hnames
      exact ih (op.apply st) h1.1 (fun col => by rw [h1.2]; exact hnames col)

/-- Claim C9 (cursor lower bound).  Take a freshly prepared statement whose engine resolves
every name to an index `≥ 0`.  After any sequence of sequential binds, explicit-index binds,
named binds (of scalars, pairs or tuples, nested or not), `decrement_next`, `reset` and moves,
each of which may return or throw, the cursor is `≥ 1`.  And `decrement_next` sets the cursor
to `max(m_bind_idx - 1, 1)`. -/
theorem cursor_lower_bound (res : Int) (buf : sqlite3_stmt) (st0 : statement)
    (hprep : statement.prepare res buf = Except.ok st0)
    (hnames : ∀ col : String, 0 ≤ sqlite3_bind_parameter_index buf col) (ops : List Op) :
    1 ≤ (run ops st0).m_bind_idx ∧
    ∀ st : statement, st.decrement_next.m_bind_idx = max (st.m_bind_idx - 1) 1 := by
  refine ⟨?_, fun _ => rfl⟩
  unfold statement.prepare at hprep
  split at hprep
  · cases hprep
  · injection hprep with hprep
    subst hprep
    exact run_keeps ops _ (le_refl _) hnames

/-- Claim C9 on the sample statement and a sequence using every kind of operation. -/
theorem cursor_lower_bound_witness :
    statement.prepare SQLITE_OK sample_stmt = Except.ok (statement.mk sample_stmt 1) ∧
    (∀ col : String, 0 ≤ sqlite3_bind_parameter_index sample_stmt col) ∧
    (1 ≤ (run [Op.bind (Arg.tuple [Arg.scalar (Scalar.text "Jane"), Arg.scalar Scalar.null]),
               Op.bind_named ":age" (Arg.scalar (Scalar.int 30)),
               Op.decrement_next, Op.reset, Op.decrement_next, Op.decrement_next, Op.move,
               Op.bind_at 9 (Arg.pair (Arg.scalar (Scalar.int 1)) (Arg.scalar (Scalar.int 2))),
               Op.bind (Arg.scalar (Scalar.int 5))]
              (statement.mk sample_stmt 1)).m_bind_idx ∧
     ∀ st : statement, st.decrement_next.m_bind_idx = max (st.m_bind_idx - 1) 1) :=
  ⟨rfl,
   fun col => by
     simp only [sqlite3_bind_parameter_index, sample_stmt]
     split_ifs <;> decide,
   cursor_lower_bound SQLITE_OK sample_stmt (statement.mk sample_stmt 1) rfl
     (fun col => by
       simp only [sqlite3_bind_parameter_index, sample_stmt]
       split_ifs <;> decide) _⟩

/-! ## Flattening of nested arguments -/

theorem bind_all_append (e : sqlite3_stmt) (xs ys : List (Int × Scalar)) :
    bind_all e (xs ++ ys) = bind_all (bind_all e xs) ys := by
  simp [bind_all, List.foldl_append]

theorem bind_all_bind_rc (calls : List (Int × Scalar)) (e : sqlite3_stmt) :
    (bind_all e calls).bind_rc = e.bind_rc := by
  induction calls generalizing e with
  | nil => rfl
  | cons p ps ih => simp only [bind_all, List.foldl_cons] at ih ⊢; rw [ih]; rfl

theorem positions_append (xs ys : List Scalar) (c : Int) :
    positions c (xs ++ ys) = positions c xs ++ positions (c + xs.length) ys := by
  induction xs generalizing c with
  | nil => simp [positions]
  | cons x xs ih =>
      show (c, x) :: positions (c + 1) (xs ++ ys) = _
      rw [ih]
      simp only [positions, List.length_cons, Nat.cast_add, Nat.cast_one, List.cons_append]
      rw [show c + 1 + (xs.length : Int) = c + ((xs.length : Int) + 1) by ring]

theorem bind_on_cursor (st : statement) (h : 1 ≤ st.m_bind_idx) :
    st.post_increment.decrement_next = st := by
  cases st with
  | mk e c =>
      simp only [statement.post_increment, statement.decrement_next, add_sub_cancel_right] at h ⊢
      rw [max_eq_left h]

theorem bind_tuple_eq (st : statement) (args : List Arg) (h : 1 ≤ st.m_bind_idx) :
    st.bind (Arg.tuple args) = bind_each args st := by
  show bind_each args st.post_increment.decrement_next = _
  rw [bind_on_cursor st h]

theorem bind_pair_eq (st : statement) (a b : Arg) (h : 1 ≤ st.m_bind_idx) :
    st.bind (Arg.pair a b) =
      match st.bind a with
      | Outcome.throw e s => Outcome.throw e s
      | Outcome.ok s => s.bind b := by
  have hp := to_sql_pair a b st.m_bind_idx st.post_increment
  rw [bind_on_cursor st h] at hp
  exact hp

mutual
theorem bind_flat : ∀ (value : Arg) (st : statement), 1 ≤ st.m_bind_idx →
    (∀ p ∈ positions st.m_bind_idx value.leaves, st.m_stmt.bind_rc p.1 p.2 = SQLITE_OK) →
    st.bind value =
      Outcome.ok { m_stmt := bind_all st.m_stmt (positions st.m_bind_idx value.leaves),
                   m_bind_idx := st.m_bind_idx + value.leaves.length }
  | Arg.scalar v, st, _, hacc => by
      have hv : st.m_stmt.bind_rc st.m_bind_idx v = SQLITE_OK :=
        hacc (st.m_bind_idx, v) (by simp [Arg.leaves, positions])
      rw [bind_scalar_eq, bind_impl_accept st.post_increment st.m_bind_idx v hv]
      simp [Arg.leaves, positions, bind_all, sqlite3_bind, hv, statement.post_increment]
  | Arg.pair a b, st, h, hacc => by
      simp only [Arg.leaves, positions_append, List.mem_append] at hacc
      rw [bind_pair_eq st a b h, bind_flat a st h (fun p hp => hacc p (Or.inl hp))]
      simp only
      rw [bind_flat b _ (by simp only; omega)
        (fun p hp => by
          simp only [bind_all_bind_rc]
          exact hacc p (Or.inr hp))]
      simp only [Arg.leaves, positions_append, bind_all_append, List.length_append,
        Nat.cast_add, add_assoc]
  | Arg.tuple args, st, h, hacc => by
      rw [bind_tuple_eq st args h]
      exact bind_each_flat args st h hacc
theorem bind_each_flat : ∀ (args : List Arg) (st : statement), 1 ≤ st.m_bind_idx →
    (∀ p ∈ positions st.m_bind_idx (leaves_each args), st.m_stmt.bind_rc p.1 p.2 = SQLITE_OK) →
    bind_each args st =
      Outcome.ok { m_stmt := bind_all st.m_stmt (positions st.m_bind_idx (leaves_each args)),
                   m_bind_idx := st.m_bind_idx + (leaves_each args).length }
  | [], st, _, _ => by
      simp [bind_each, leaves_each, positions, bind_all]
  | a :: rest, st, h, hacc => by
      simp only [leaves_each, positions_append, List.mem_append] at hacc
      rw [bind_each_cons, bind_flat a st h (fun p hp => hacc p (Or.inl hp))]
      simp only
      rw [bind_each_flat rest _ (by simp only; omega)
        (fun p hp => by
          simp only [bind_all_bind_rc]
          exact hacc p (Or.inr hp))]
      simp only [leaves_each, positions_append, bind_all_append, List.length_append,
        Nat.cast_add, add_assoc]
end

theorem accept_positions (rc : Int → Scalar → Int) (vs : List Scalar) (c : Int)
    (h : ∀ (j : Nat) (v : Scalar), vs[j]? = some v → rc (c + j) v = SQLITE_OK) :
    ∀ p ∈ positions c vs, rc p.1 p.2 = SQLITE_OK := by
  intro p hp
  rw [positions_eq_enum] at hp
  obtain ⟨q, hq, rfl⟩ := List.mem_map.1 hp
  obtain ⟨i, v⟩ := q
  exact h i v (List.mk_mem_enum_iff_getElem?.1 hq)

/-- The effect on the engine of accepted binds at consecutive indices. -/
theorem bind_all_positions (e : sqlite3_stmt) (vs : List Scalar) (c : Int)
    (hacc : ∀ p ∈ positions c vs, e.bind_rc p.1 p.2 = SQLITE_OK) :
    (bind_all e (positions c vs)).bind_calls =
      e.bind_calls ++ vs.enum.map (fun p => (c + (p.1 : Int), p.2)) ∧
    (∀ (j : Nat) (v : Scalar), vs[j]? = some v →
      (bind_all e (positions c vs)).bound (c + j) = some v) ∧
    (∀ j : Int, j < c ∨ c + vs.length ≤ j →
      (bind_all e (positions c vs)).bound j = e.bound j) := by
  refine ⟨?_, ?_, ?_⟩
  · simp only [bind_all_bind_calls, positions_eq_enum]
  · intro j v hj
    exact bind_all_positions_bound vs e c hacc j v hj
  · intro j hj
    apply bind_all_bound_other
    intro p hp
    have := positions_fst_ge vs c p hp
    omega

/-- Claim C18 (nested encode flattening).  Let the cursor be `c ≥ 1`, let `value` be a scalar
or any nesting of pairs and tuples of scalars (empty tuples included) with the scalar leaves
`value.leaves` in left-to-right order, and let the engine accept the binds concerned.  The
sequential `bind(value)` returns normally, issues exactly the engine binds `(c + j, leaf j)`
in this order, leaves slot `c + j` holding leaf `j`, leaves the other slots as they were, and
leaves the cursor at `c + m`, `m` being the number of leaves. -/
theorem bind_nested_flattens (st : statement) (value : Arg) (c : Int)
    (hcur : st.m_bind_idx = c) (hc : 1 ≤ c)
    (haccept : ∀ (j : Nat) (v : Scalar), value.leaves[j]? = some v →
      st.m_stmt.bind_rc (c + j) v = SQLITE_OK) :
    ∃ st', st.bind value = Outcome.ok st' ∧
      st'.m_stmt.bind_calls =
        st.m_stmt.bind_calls ++ value.leaves.enum.map (fun p => (c + (p.1 : Int), p.2)) ∧
      (∀ (j : Nat) (v : Scalar), value.leaves[j]? = some v →
        st'.m_stmt.bound (c + j) = some v) ∧
      (∀ j : Int, j < c ∨ c + value.leaves.length ≤ j →
        st'.m_stmt.bound j = st.m_stmt.bound j) ∧
      st'.m_bind_idx = c + value.leaves.length := by
  subst hcur
  have hacc := accept_positions st.m_stmt.bind_rc value.leaves st.m_bind_idx haccept
  obtain ⟨h1, h2, h3⟩ := bind_all_positions st.m_stmt value.leaves st.m_bind_idx hacc
  exact ⟨_, bind_flat value st hc hacc, h1, h2, h3, rfl⟩

/-- Claim C18 at a nested argument that contains an empty tuple, cursor 1. -/
theorem bind_nested_flattens_witness :
    (statement.mk sample_stmt 1).m_bind_idx = 1 ∧ (1 : Int) ≤ 1 ∧
    ∃ st', (statement.mk sample_stmt 1).bind
        (Arg.tuple [Arg.pair (Arg.scalar (Scalar.int 1)) (Arg.tuple []),
          Arg.tuple [Arg.scalar (Scalar.text "a"), Arg.tuple [Arg.scalar Scalar.null]]]) =
          Outcome.ok st' ∧
      st'.m_stmt.bind_calls =
        sample_stmt.bind_calls ++
          [Scalar.int 1, Scalar.text "a", Scalar.null].enum.map
            (fun p => ((1 : Int) + (p.1 : Int), p.2)) ∧
      (∀ (j : Nat) (v : Scalar), [Scalar.int 1, Scalar.text "a", Scalar.null][j]? = some v →
        st'.m_stmt.bound (1 + j) = some v) ∧
      (∀ j : Int, j < 1 ∨ 1 + ([Scalar.int 1, Scalar.text "a", Scalar.null].length : Int) ≤ j →
        st'.m_stmt.bound j = sample_stmt.bound j) ∧
      st'.m_bind_idx = 1 + ([Scalar.int 1, Scalar.text "a", Scalar.null].length : Int) :=
  ⟨rfl, by decide,
   bind_nested_flattens (statement.mk sample_stmt 1)
     (Arg.tuple [Arg.pair (Arg.scalar (Scalar.int 1)) (Arg.tuple []),
       Arg.tuple [Arg.scalar (Scalar.text "a"), Arg.tuple [Arg.scalar Scalar.null]]]) 1
     rfl (by decide)
     (by
       intro j v hj
       have hlt : j < 3 := by
         rcases Nat.lt_or_ge j 3 with h | h
         · exact h
         · rw [List.getElem?_eq_none (by simpa [Arg.leaves, leaves_each] using h)] at hj
           cases hj
       have h1 : (1 : Int) ≤ 1 + (j : Int) := by omega
       have h2 : 1 + (j : Int) ≤ 3 := by omega
       simp [sample_stmt, h1, h2])⟩

/-- Claim C11 (`query` binds its arguments sequentially).  When `sqlite3_prepare_v2` succeeds
and the engine accepts the binds concerned, `query(sql, args...)` returns a statement on which
exactly the flattened scalar values of the arguments were bound, in call order, value number
`j + 1` at parameter index `j + 1`; the other slots are as prepared and the cursor of the
returned statement is `m + 1`, `m` being the number of flattened values. -/
theorem query_binds_sequentially (db : database) (sql : String) (args : List Arg)
    (hprep : check (db.m_db sql).1 = none)
    (haccept : ∀ (j : Nat) (v : Scalar), (leaves_each args)[j]? = some v →
      (db.m_db sql).2.bind_rc (1 + j) v = SQLITE_OK) :
    ∃ st, db.query sql args = Except.ok st ∧
      st.m_stmt.bind_calls =
        (db.m_db sql).2.bind_calls ++
          (leaves_each args).enum.map (fun p => ((1 : Int) + (p.1 : Int), p.2)) ∧
      (∀ (j : Nat) (v : Scalar), (leaves_each args)[j]? = some v →
        st.m_stmt.bound (1 + j) = some v) ∧
      (∀ j : Int, j < 1 ∨ 1 + (leaves_each args).length ≤ j →
        st.m_stmt.bound j = (db.m_db sql).2.bound j) ∧
      st.m_bind_idx = (leaves_each args).length + 1 := by
  have hacc := accept_positions (db.m_db sql).2.bind_rc (leaves_each args) 1 haccept
  obtain ⟨h1, h2, h3⟩ := bind_all_positions (db.m_db sql).2 (leaves_each args) 1 hacc
  have hq : db.query sql args =
      Except.ok { m_stmt := bind_all (db.m_db sql).2 (positions 1 (leaves_each args)),
                  m_bind_idx := 1 + (leaves_each args).length } := by
    unfold database.query statement.prepare
    rw [hprep]
    simp only
    rw [bind_each_flat args ⟨(db.m_db sql).2, 1⟩ (le_refl _) hacc]
    rfl
  exact ⟨_, hq, h1, h2, h3, add_comm _ _⟩

/-- Claim C11 on the sample connection with a scalar followed by a pair. -/
theorem query_binds_sequentially_witness :
    check (sample_db.m_db "INSERT INTO people VALUES (?, ?, ?)").1 = none ∧
    ∃ st, sample_db.query "INSERT INTO people VALUES (?, ?, ?)"
        [Arg.scalar (Scalar.text "John"),
         Arg.pair (Arg.scalar (Scalar.text "Doe")) (Arg.scalar (Scalar.int 20))] = Except.ok st ∧
      st.m_stmt.bind_calls =
        (sample_db.m_db "INSERT INTO people VALUES (?, ?, ?)").2.bind_calls ++
          [Scalar.text "John", Scalar.text "Doe", Scalar.int 20].enum.map
            (fun p => ((1 : Int) + (p.1 : Int), p.2)) ∧
      (∀ (j : Nat) (v : Scalar),
        [Scalar.text "John", Scalar.text "Doe", Scalar.int 20][j]? = some v →
          st.m_stmt.bound (1 + j) = some v) ∧
      (∀ j : Int,
        j < 1 ∨ 1 + ([Scalar.text "John", Scalar.text "Doe", Scalar.int 20].length : Int) ≤ j →
          st.m_stmt.bound j =
            (sample_db.m_db "INSERT INTO people VALUES (?, ?, ?)").2.bound j) ∧
      st.m_bind_idx = ([Scalar.text "John", Scalar.text "Doe", Scalar.int 20].length : Int) + 1 :=
  ⟨by decide,
   query_binds_sequentially sample_db "INSERT INTO people VALUES (?, ?, ?)"
     [Arg.scalar (Scalar.text "John"),
      Arg.pair (Arg.scalar (Scalar.text "Doe")) (Arg.scalar (Scalar.int 20))]
     (by decide)
     (by
       intro j v hj
       have hlt : j < 3 := by
         rcases Nat.lt_or_ge j 3 with h | h
         · exact h
         · rw [List.getElem?_eq_none (by simpa [Arg.leaves, leaves_each] using h)] at hj
           cases hj
       have h1 : (1 : Int) ≤ 1 + (j : Int) := by omega
       have h2 : 1 + (j : Int) ≤ 3 := by omega
       simp [sample_db, sample_stmt, h1, h2])⟩

/-! ## Composite arguments at an explicit index -/

theorem bind_at_pair_eq_tuple (st : statement) (i : Int) (a b : Arg) :
    st.bind_at i (Arg.pair a b) = st.bind_at i (Arg.tuple [a, b]) := by
  simp only [statement.bind_at, to_sql, bind_each]
  split
  · rfl
  · split <;> simp_all [bind_each]

/-- Claim C17, as amended.  `bind(i, tuple)` ignores `i`: with the cursor at `c` and the engine
accepting the binds concerned, it writes the `n` scalar components to the contiguous run of
parameter positions starting at `max(c - 1, 1)`, whatever `i` is, and leaves the cursor one
past the run; a named bind resolving to `i` does the same and then sets the cursor to `i + 1`;
a pair is encoded exactly like the tuple of its two components. -/
theorem bind_at_tuple_ignores_index (st : statement) (i : Int) (vs : List Scalar) (c : Int)
    (hcur : st.m_bind_idx = c)
    (haccept : ∀ (j : Nat) (v : Scalar), vs[j]? = some v →
      st.m_stmt.bind_rc (max (c - 1) 1 + j) v = SQLITE_OK) :
    (∃ st', st.bind_at i (Arg.tuple (vs.map Arg.scalar)) = Outcome.ok st' ∧
      st'.m_stmt.bind_calls =
        st.m_stmt.bind_calls ++ vs.enum.map (fun p => (max (c - 1) 1 + (p.1 : Int), p.2)) ∧
      (∀ (j : Nat) (v : Scalar), vs[j]? = some v →
        st'.m_stmt.bound (max (c - 1) 1 + j) = some v) ∧
      (∀ j : Int, j < max (c - 1) 1 ∨ max (c - 1) 1 + vs.length ≤ j →
        st'.m_stmt.bound j = st.m_stmt.bound j) ∧
      st'.m_bind_idx = max (c - 1) 1 + vs.length ∧
      (∀ col : String, sqlite3_bind_parameter_index st.m_stmt col = i → i ≠ 0 →
        st.bind_named col (Arg.tuple (vs.map Arg.scalar)) =
          Outcome.ok { st' with m_bind_idx := i + 1 })) ∧
    (∀ i' : Int, st.bind_at i' (Arg.tuple (vs.map Arg.scalar)) =
      st.bind_at i (Arg.tuple (vs.map Arg.scalar))) ∧
    (∀ a b : Arg, st.bind_at i (Arg.pair a b) = st.bind_at i (Arg.tuple [a, b])) := by
  subst hcur
  have hacc := accept_positions st.m_stmt.bind_rc vs (max (st.m_bind_idx - 1) 1) haccept
  obtain ⟨h1, h2, h3⟩ := bind_all_positions st.m_stmt vs (max (st.m_bind_idx - 1) 1) hacc
  have hb : st.bind_at i (Arg.tuple (vs.map Arg.scalar)) =
      Outcome.ok { m_stmt := bind_all st.m_stmt (positions (max (st.m_bind_idx - 1) 1) vs),
                   m_bind_idx := max (st.m_bind_idx - 1) 1 + vs.length } := by
    show bind_each (vs.map Arg.scalar) st.decrement_next = _
    exact bind_each_scalars vs st.decrement_next hacc
  refine ⟨⟨_, hb, h1, h2, h3, rfl, ?_⟩, fun _ => rfl, bind_at_pair_eq_tuple st i⟩
  intro col hcol hne
  unfold statement.bind_named
  rw [hcol, if_pos hne, hb]

/-- Claim C17, as amended, at cursor 3 and index 1: the run starts at parameter 2. -/
theorem bind_at_tuple_ignores_index_witness :
    (statement.mk sample_stmt 3).m_bind_idx = 3 ∧
    ∃ st', (statement.mk sample_stmt 3).bind_at 1
        (Arg.tuple ([Scalar.int 10, Scalar.int 20].map Arg.scalar)) = Outcome.ok st' ∧
      st'.m_stmt.bind_calls =
        sample_stmt.bind_calls ++
          [Scalar.int 10, Scalar.int 20].enum.map
            (fun p => (max ((3 : Int) - 1) 1 + (p.1 : Int), p.2)) ∧
      st'.m_stmt.bound 2 = some (Scalar.int 10) ∧
      st'.m_stmt.bound 3 = some (Scalar.int 20) ∧
      st'.m_stmt.bound 1 = sample_stmt.bound 1 ∧
      st'.m_bind_idx = 4 := by
  obtain ⟨⟨st', h0, h1, h2, h3, h4, _⟩, _, _⟩ :=
    bind_at_tuple_ignores_index (statement.mk sample_stmt 3) 1 [Scalar.int 10, Scalar.int 20] 3
      rfl
      (by
        intro j v hj
        have hlt : j < 2 := by
          rcases Nat.lt_or_ge j 2 with h | h
          · exact h
          · rw [List.getElem?_eq_none (by simpa using h)] at hj
            cases hj
        have h1 : (1 : Int) ≤ max ((3 : Int) - 1) 1 + (j : Int) := by
          have : max ((3 : Int) - 1) 1 = 2 := by decide
          omega
        have h2 : max ((3 : Int) - 1) 1 + (j : Int) ≤ 3 := by
          have : max ((3 : Int) - 1) 1 = 2 := by decide
          omega
        simp only [sample_stmt]
        rw [if_pos ⟨h1, h2⟩])
  refine ⟨rfl, st', h0, h1, ?_, ?_, ?_, ?_⟩
  · have := h2 0 (Scalar.int 10) rfl
    simpa using this
  · have := h2 1 (Scalar.int 20) rfl
    have e : max ((3 : Int) - 1) 1 + ((1 : Nat) : Int) = 3 := by decide
    rw [e] at this
    exact this
  · exact h3 1 (Or.inl (by decide))
  · rw [h4]; decide

/-- Claim C17 as stated fails: on the sample statement with the cursor at 1, `bind(2, pair(10, 20))`
writes 10 to parameter 1 and 20 to parameter 2, and leaves parameter 3 unbound, where the
claim has 10 at parameter 2 and 20 at parameter 3. -/
theorem bind_at_pair_misses_index :
    ((statement.mk sample_stmt 1).bind_at 2
        (Arg.pair (Arg.scalar (Scalar.int 10)) (Arg.scalar (Scalar.int 20)))).raised = none ∧
    ((statement.mk sample_stmt 1).bind_at 2
        (Arg.pair (Arg.scalar (Scalar.int 10)) (Arg.scalar (Scalar.int 20)))).st.m_stmt.bind_calls =
      [(1, Scalar.int 10), (2, Scalar.int 20)] ∧
    ((statement.mk sample_stmt 1).bind_at 2
        (Arg.pair (Arg.scalar (Scalar.int 10)) (Arg.scalar (Scalar.int 20)))).st.m_stmt.bound 2 =
      some (Scalar.int 20) ∧
    ((statement.mk sample_stmt 1).bind_at 2
        (Arg.pair (Arg.scalar (Scalar.int 10)) (Arg.scalar (Scalar.int 20)))).st.m_stmt.bound 3 =
      none := by
  decide

/-! ## Cursor movement of scalar binds, and reset -/

/-- The cursor after a named scalar bind: one past the resolved index when the name is found
and the engine's answer passes `check`, unchanged otherwise. -/
theorem bind_named_scalar_cursor (st : statement) (col : String) (v : Scalar) :
    (st.bind_named col (Arg.scalar v)).st.m_bind_idx =
      if sqlite3_bind_parameter_index st.m_stmt col ≠ 0 ∧
          check (st.m_stmt.bind_rc (sqlite3_bind_parameter_index st.m_stmt col) v) = none
      then sqlite3_bind_parameter_index st.m_stmt col + 1
      else st.m_bind_idx := by
  unfold statement.bind_named
  by_cases hr : sqlite3_bind_parameter_index st.m_stmt col ≠ 0
  · rw [if_pos hr]
    simp only [statement.bind_at, to_sql, statement.bind_impl]
    have hrc : (sqlite3_bind st.m_stmt (sqlite3_bind_parameter_index st.m_stmt col) v).1 =
        st.m_stmt.bind_rc (sqlite3_bind_parameter_index st.m_stmt col) v := rfl
    rw [hrc]
    cases hc : check (st.m_stmt.bind_rc (sqlite3_bind_parameter_index st.m_stmt col) v) with
    | none => simp [hr, Outcome.st]
    | some err => simp [Outcome.st]
  · rw [if_neg hr, if_neg (fun h => hr h.1)]
    rfl

/-- Claim C16, as amended.  With the cursor at `c`: a sequential scalar bind leaves it at
`c + 1` and an explicit-index scalar bind leaves it at `c`, so neither lowers it.  A named
scalar bind whose name resolves to `r` leaves the cursor at `c` when `r = 0` (not found) or
when the engine's answer to the bind fails `check` (refused), and sets it to `r + 1` when
`r ≠ 0` and the answer passes `check`; so the cursor after it is `≥ c` exactly when the name
is not found, the bind is refused, or `c ≤ r + 1`. -/
theorem scalar_bind_cursor (st : statement) (v : Scalar) (c : Int)
    (hcur : st.m_bind_idx = c) :
    ((st.bind (Arg.scalar v)).st.m_bind_idx = c + 1 ∧
      c ≤ (st.bind (Arg.scalar v)).st.m_bind_idx) ∧
    (∀ i : Int, (st.bind_at i (Arg.scalar v)).st.m_bind_idx = c ∧
      c ≤ (st.bind_at i (Arg.scalar v)).st.m_bind_idx) ∧
    (∀ (col : String) (r : Int), sqlite3_bind_parameter_index st.m_stmt col = r →
      (r = 0 → (st.bind_named col (Arg.scalar v)).st.m_bind_idx = c) ∧
      (r ≠ 0 → check (st.m_stmt.bind_rc r v) ≠ none →
        (st.bind_named col (Arg.scalar v)).st.m_bind_idx = c) ∧
      (r ≠ 0 → check (st.m_stmt.bind_rc r v) = none →
        (st.bind_named col (Arg.scalar v)).st.m_bind_idx = r + 1) ∧
      (c ≤ (st.bind_named col (Arg.scalar v)).st.m_bind_idx ↔
        (r = 0 ∨ check (st.m_stmt.bind_rc r v) ≠ none ∨ c ≤ r + 1))) := by
  subst hcur
  have hseq : (st.bind (Arg.scalar v)).st.m_bind_idx = st.m_bind_idx + 1 := by
    rw [bind_scalar_eq, bind_impl_st]; rfl
  have hat : ∀ i : Int, (st.bind_at i (Arg.scalar v)).st.m_bind_idx = st.m_bind_idx := by
    intro i
    simp only [statement.bind_at, to_sql]
    rw [bind_impl_st]
  refine ⟨⟨hseq, by rw [hseq]; omega⟩, fun i => ⟨hat i, by rw [hat i]⟩, ?_⟩
  intro col r hres
  subst hres
  have hn := bind_named_scalar_cursor st col v
  refine ⟨?_, ?_, ?_, ?_⟩
  · intro h0
    rw [hn, if_neg (fun h => h.1 h0)]
  · intro _ hc
    rw [hn, if_neg (fun h => hc h.2)]
  · intro hr hc
    rw [hn, if_pos ⟨hr, hc⟩]
  · rw [hn]
    by_cases hr : sqlite3_bind_parameter_index st.m_stmt col = 0
    · rw [if_neg (fun h => h.1 hr)]
      exact ⟨fun _ => Or.inl hr, fun _ => le_refl _⟩
    · by_cases hc : check (st.m_stmt.bind_rc (sqlite3_bind_parameter_index st.m_stmt col) v)
          = none
      · rw [if_pos ⟨hr, hc⟩]
        constructor
        · intro h
          exact Or.inr (Or.inr h)
        · intro h
          rcases h with h | h | h
          · exact absurd h hr
          · exact absurd hc h
          · exact h
      · rw [if_neg (fun h => hc h.2)]
        exact ⟨fun _ => Or.inr (Or.inl hc), fun _ => le_refl _⟩

/-- Claim C16, as amended, at cursor 2: a sequential bind, an explicit-index bind, a name that
is not found, a name found and accepted (`:age`, index 3), a name found and refused, and a
name found just below the cursor (`:first_name`, index 1, so that `r + 1` is the cursor). -/
theorem scalar_bind_cursor_witness :
    ((statement.mk sample_stmt 2).m_bind_idx = 2 ∧
      ((statement.mk sample_stmt 2).bind (Arg.scalar (Scalar.int 5))).st.m_bind_idx = 2 + 1 ∧
      ((statement.mk sample_stmt 2).bind_at 3 (Arg.scalar (Scalar.int 5))).st.m_bind_idx = 2) ∧
    (sqlite3_bind_parameter_index sample_stmt ":nickname" = 0 ∧
      ((statement.mk sample_stmt 2).bind_named ":nickname"
        (Arg.scalar (Scalar.int 5))).st.m_bind_idx = 2) ∧
    (sqlite3_bind_parameter_index sample_stmt ":age" = 3 ∧ (3 : Int) ≠ 0 ∧
      check (sample_stmt.bind_rc 3 (Scalar.int 5)) = none ∧
      ((statement.mk sample_stmt 2).bind_named ":age"
        (Arg.scalar (Scalar.int 5))).st.m_bind_idx = 3 + 1) ∧
    (sqlite3_bind_parameter_index misuse_stmt ":age" = 3 ∧ (3 : Int) ≠ 0 ∧
      check (misuse_stmt.bind_rc 3 (Scalar.int 5)) ≠ none ∧
      ((statement.mk misuse_stmt 2).bind_named ":age"
        (Arg.scalar (Scalar.int 5))).st.m_bind_idx = 2) ∧
    (sqlite3_bind_parameter_index sample_stmt ":first_name" = 1 ∧
      ((1 : Int) = 0 ∨ check (sample_stmt.bind_rc 1 (Scalar.int 5)) ≠ none ∨
        (2 : Int) ≤ 1 + 1) ∧
      (2 : Int) ≤ ((statement.mk sample_stmt 2).bind_named ":first_name"
        (Arg.scalar (Scalar.int 5))).st.m_bind_idx) :=
  ⟨⟨rfl,
    (scalar_bind_cursor (statement.mk sample_stmt 2) (Scalar.int 5) 2 rfl).1.1,
    ((scalar_bind_cursor (statement.mk sample_stmt 2) (Scalar.int 5) 2 rfl).2.1 3).1⟩,
   ⟨by decide,
    ((scalar_bind_cursor (statement.mk sample_stmt 2) (Scalar.int 5) 2 rfl).2.2 ":nickname" 0
      (by decide)).1 rfl⟩,
   ⟨by decide, by decide, by decide,
    ((scalar_bind_cursor (statement.mk sample_stmt 2) (Scalar.int 5) 2 rfl).2.2 ":age" 3
      (by decide)).2.2.1 (by decide) (by decide)⟩,
   ⟨by decide, by decide, by decide,
    ((scalar_bind_cursor (statement.mk misuse_stmt 2) (Scalar.int 5) 2 rfl).2.2 ":age" 3
      (by decide)).2.1 (by decide) (by decide)⟩,
   ⟨by decide, Or.inr (Or.inr (by decide)),
    ((scalar_bind_cursor (statement.mk sample_stmt 2) (Scalar.int 5) 2 rfl).2.2 ":first_name" 1
      (by decide)).2.2.2.2 (Or.inr (Or.inr (by decide)))⟩⟩

/-- Claim C16 as stated fails.  On the freshly prepared sample statement the named bind of
`:age` (index 3) returns normally and moves the cursor from 1 to 4; the named bind of
`:first_name` (index 1) that follows returns normally and leaves the cursor at 2, below 4. -/
theorem bind_named_lowers_cursor :
    statement.prepare SQLITE_OK sample_stmt = Except.ok (statement.mk sample_stmt 1) ∧
    ((statement.mk sample_stmt 1).bind_named ":age" (Arg.scalar (Scalar.int 30))).raised = none ∧
    ((statement.mk sample_stmt 1).bind_named ":age"
        (Arg.scalar (Scalar.int 30))).st.m_bind_idx = 4 ∧
    (((statement.mk sample_stmt 1).bind_named ":age" (Arg.scalar (Scalar.int 30))).st.bind_named
        ":first_name" (Arg.scalar (Scalar.text "Jane"))).raised = none ∧
    (((statement.mk sample_stmt 1).bind_named ":age" (Arg.scalar (Scalar.int 30))).st.bind_named
        ":first_name" (Arg.scalar (Scalar.text "Jane"))).st.m_bind_idx = 2 ∧
    ¬ (((statement.mk sample_stmt 1).bind_named ":age"
          (Arg.scalar (Scalar.int 30))).st.m_bind_idx ≤
      (((statement.mk sample_stmt 1).bind_named ":age" (Arg.scalar (Scalar.int 30))).st.bind_named
        ":first_name" (Arg.scalar (Scalar.text "Jane"))).st.m_bind_idx) :=
  ⟨rfl, by decide, by decide, by decide, by decide, by decide⟩

/-- Claim C12 (reset semantics).  Whatever the cursor and the bound slots, when `sqlite3_reset`
passes `check` and `sqlite3_clear_bindings` answers `SQLITE_OK`, `reset()` returns normally,
the cursor is 1 and every parameter slot is unbound; nothing else of the engine statement
changes. -/
theorem reset_semantics (st : statement)
    (hreset : check (sqlite3_reset st.m_stmt).1 = none)
    (hclear : (sqlite3_clear_bindings (sqlite3_reset st.m_stmt).2).1 = SQLITE_OK) :
    ∃ st', st.reset = Outcome.ok st' ∧
      st'.m_bind_idx = 1 ∧
      (∀ j : Int, st'.m_stmt.bound j = none) ∧
      st'.m_stmt = { st.m_stmt with bound := fun _ => none } := by
  have hc : check (sqlite3_clear_bindings (sqlite3_reset st.m_stmt).2).1 = none := by
    rw [hclear]; exact check_ok
  have hrc : st.m_stmt.clear_bindings_rc = SQLITE_OK := hclear
  refine ⟨{ m_stmt := { st.m_stmt with bound := fun _ => none }, m_bind_idx := 1 }, ?_,
    rfl, fun _ => rfl, rfl⟩
  unfold statement.reset
  rw [hreset]
  simp only
  rw [hc]
  simp only [sqlite3_clear_bindings, sqlite3_reset, hrc, if_true]

/-- Claim C12 on the sample statement with two bound parameters and the cursor at 3. -/
theorem reset_semantics_witness :
    check (sqlite3_reset (statement.mk bound_stmt 3).m_stmt).1 = none ∧
    (sqlite3_clear_bindings (sqlite3_reset (statement.mk bound_stmt 3).m_stmt).2).1 = SQLITE_OK ∧
    bound_stmt.bound 1 = some (Scalar.text "Jane") ∧
    ∃ st', (statement.mk bound_stmt 3).reset = Outcome.ok st' ∧
      st'.m_bind_idx = 1 ∧
      (∀ j : Int, st'.m_stmt.bound j = none) ∧
      st'.m_stmt = { (statement.mk bound_stmt 3).m_stmt with bound := fun _ => none } :=
  ⟨by decide, by decide, by decide,
   reset_semantics (statement.mk bound_stmt 3) (by decide) (by decide)⟩

/-! ## Callbacks -/

theorem exec_loop_eq {σ : Type} (Ts : List Ty) (func : List Val → σ → σ) (acc : σ)
    (st : statement) :
    statement.exec_loop Ts func acc st =
      match st.step with
      | (Except.ok true, s) =>
          statement.exec_loop Ts func (func (s.get (Ty.tuple Ts) 0).components acc) s
      | (Except.ok false, s) => (acc, Outcome.ok s)
      | (Except.error e, s) => (acc, Outcome.throw e s) := by
  rw [statement.exec_loop]
  split <;> rename_i heq <;> rw [heq]

/-- The arguments of a callback with parameter types `Ts`: parameter `j` is decoded at `j`. -/
theorem from_sql_each_values (Ts : List Ty) (k : Int) (st : statement) :
    (from_sql_each Ts k st).1 =
      Ts.enum.map (fun p => (from_sql p.2 (k + (p.1 : Int)) st).1) := by
  induction Ts generalizing k with
  | nil => simp [from_sql_each]
  | cons T Ts ih =>
      simp only [from_sql_each, ih, List.enum_cons, List.map_cons, Nat.cast_zero, add_zero,
        List.cons.injEq, true_and]
      rw [List.enumFrom_eq_map_enum]
      simp only [List.map_map, List.enum]
      apply List.map_congr_left
      intro p _
      simp only [Function.comp, Prod.map, id, zero_add, Nat.cast_add, Nat.cast_one]
      rw [show k + 1 + (p.1 : Int) = k + ((p.1 : Int) + 1) by ring]

theorem get_tuple_components (Ts : List Ty) (st : statement) :
    (st.get (Ty.tuple Ts) 0).components = Ts.enum.map (fun p => st.get p.2 (p.1 : Int)) := by
  simp only [statement.get, from_sql, Val.components, from_sql_each_values, zero_add]

theorem exec_loop_rows {σ : Type} (Ts : List Ty) (func : List Val → σ → σ) (rows : List Row)
    (acc : σ) (st : statement) (h : st.m_stmt.pending = rows.map StepEvent.row) :
    (statement.exec_loop Ts func acc st).1 =
      rows.foldl
        (fun a r => func (Ts.enum.map (fun p => (st.on_row r).get p.2 (p.1 : Int))) a) acc ∧
    (statement.exec_loop Ts func acc st).2.raised = none ∧
    (statement.exec_loop Ts func acc st).2.st.m_stmt.pending = [] := by
  induction rows generalizing acc st with
  | nil =>
      rw [exec_loop_eq, step_nil st h]
      simp [Outcome.raised, Outcome.st, h]
  | cons r rows ih =>
      rw [exec_loop_eq, step_row st r _ h]
      simp only
      have := ih
        (func (statement.get
          { st with m_stmt :=
              { st.m_stmt with pending := rows.map StepEvent.row, current := r } }
          (Ty.tuple Ts) 0).components acc)
        { st with m_stmt :=
            { st.m_stmt with pending := rows.map StepEvent.row, current := r } } rfl
      obtain ⟨h1, h2, h3⟩ := this
      refine ⟨?_, h2, h3⟩
      rw [h1, get_tuple_components]
      simp only [List.foldl_cons, statement.get, statement.on_row]
      have e1 : ∀ (T : Ty) (j : Int) (r' : Row),
          (from_sql T j
            { m_stmt :=
                { ({ st.m_stmt with pending := rows.map StepEvent.row, current := r } :
                    sqlite3_stmt) with current := r' },
              m_bind_idx := st.m_bind_idx }).1 =
          (from_sql T j { st with m_stmt := { st.m_stmt with current := r' } }).1 :=
        fun T j r' => congrArg Prod.fst (from_sql_current T j _ _ rfl)
      have e2 : ∀ (T : Ty) (j : Int),
          (from_sql T j
            { st with m_stmt :=
                { st.m_stmt with pending := rows.map StepEvent.row, current := r } }).1 =
          (from_sql T j { st with m_stmt := { st.m_stmt with current := r } }).1 :=
        fun T j => congrArg Prod.fst (from_sql_current T j _ _ rfl)
      simp only [e1, e2]

theorem foldl_log {α β : Type} (f : α → β) (rows : List α) (init : List β) :
    rows.foldl (fun log r => log ++ [f r]) init = init ++ rows.map f := by
  induction rows generalizing init with
  | nil => simp
  | cons r rows ih => simp [ih]

/-- Claim C15 (`exec` with a callback).  On a result set of the rows `rows` and for a callback
with the parameter types `Ts`, `exec(func)` calls `func` once per row, in row order, the call
for row `r` receiving for parameter `j` the value decoded at column index `j` of `r`: the
captured state ends as the left fold of these calls, and the log of the calls is the list of
those argument lists, one per row (empty when there is no row).  No error is raised and the
result set is consumed. -/
theorem exec_callback_rows {σ : Type} (st : statement) (Ts : List Ty)
    (func : List Val → σ → σ) (acc : σ) (rows : List Row)
    (hrows : st.m_stmt.pending = rows.map StepEvent.row) :
    (st.exec_callback Ts func acc).1 =
      rows.foldl
        (fun a r => func (Ts.enum.map (fun p => (st.on_row r).get p.2 (p.1 : Int))) a) acc ∧
    (st.exec_callback Ts (fun args (log : List (List Val)) => log ++ [args]) []).1 =
      rows.map (fun r => Ts.enum.map (fun p => (st.on_row r).get p.2 (p.1 : Int))) ∧
    (st.exec_callback Ts func acc).2.raised = none ∧
    (st.exec_callback Ts func acc).2.st.m_stmt.pending = [] := by
  obtain ⟨h1, h2, h3⟩ := exec_loop_rows Ts func rows acc st hrows
  obtain ⟨g1, _, _⟩ :=
    exec_loop_rows Ts (fun args (log : List (List Val)) => log ++ [args]) rows [] st hrows
  refine ⟨h1, ?_, h2, h3⟩
  unfold statement.exec_callback
  rw [g1, foldl_log]
  rfl

/-- Claim C15 with the callback of the example program on two rows, and on no row. -/
theorem exec_callback_rows_witness :
    ((statement.mk two_rows_stmt 1).m_stmt.pending = [sample_row, sample_row2].map StepEvent.row ∧
      ((statement.mk two_rows_stmt 1).exec_callback [Ty.scalar ScalarTy.int] add_age 0).1 = 50 ∧
      ((statement.mk two_rows_stmt 1).exec_callback [Ty.scalar ScalarTy.int]
          (fun args (log : List (List Val)) => log ++ [args]) []).1 =
        [[Val.int 20], [Val.int 30]]) ∧
    ((statement.mk sample_stmt 1).m_stmt.pending = ([] : List Row).map StepEvent.row ∧
      ((statement.mk sample_stmt 1).exec_callback [Ty.scalar ScalarTy.int]
          (fun args (log : List (List Val)) => log ++ [args]) []).1 = []) :=
  ⟨⟨rfl,
    (exec_callback_rows (statement.mk two_rows_stmt 1) [Ty.scalar ScalarTy.int] add_age 0
      [sample_row, sample_row2] rfl).1.trans (by decide),
    (exec_callback_rows (statement.mk two_rows_stmt 1) [Ty.scalar ScalarTy.int] add_age 0
      [sample_row, sample_row2] rfl).2.1.trans rfl⟩,
   ⟨rfl,
    (exec_callback_rows (statement.mk sample_stmt 1) [Ty.scalar ScalarTy.int] add_age 0
      [] rfl).2.1⟩⟩

/-! ## Round trips through `SELECT ?` -/

theorem three_halves_num : ((3 : Rat) / 2).num = 3 := by
  have := Rat.num_div_eq_of_coprime (a := 3) (b := 2) (by norm_num) (by decide)
  simpa using this

theorem three_halves_den : ((3 : Rat) / 2).den = 2 := by
  have := Rat.den_div_eq_of_coprime (a := 3) (b := 2) (by norm_num) (by decide)
  simp only [Int.cast_ofNat] at this
  exact_mod_cast this

theorem double_to_int_three_halves : double_to_int (3 / 2) = 1 := by
  unfold double_to_int
  rw [three_halves_num, three_halves_den]
  decide

theorem c_str_of_no_nul (s : String) (h : Char.ofNat 0 ∉ s.data) : c_str s = s := by
  unfold c_str
  have : s.data.takeWhile (fun ch => ch ≠ Char.ofNat 0) = s.data := by
    apply List.takeWhile_eq_self_iff.2
    intro ch hch
    simp only [ne_eq, decide_not, Bool.not_eq_true', decide_eq_false_iff_not]
    intro heq
    exact h (heq ▸ hch)
  rw [this]

/-- The round trip of an accepted scalar bound at parameter 1: the value decoded from the
row echoing the bindings. -/
theorem round_trip_scalar (other : Row) (st : statement) (s : Scalar) (T : Ty)
    (hcur : st.m_bind_idx = 1) (hacc : st.m_stmt.bind_rc 1 s = SQLITE_OK) :
    round_trip other st (Arg.scalar s) T =
      some ((st.on_row (echo_row other (Function.update st.m_stmt.bound 1 (some s)))).get T 0) := by
  unfold round_trip
  rw [bind_scalar_eq, hcur, bind_impl_accept st.post_increment 1 s hacc]
  simp only
  rw [step_row _ (echo_row other (Function.update st.m_stmt.bound 1 (some s))) [] rfl]
  simp only [statement.get, statement.on_row]
  exact congrArg some (congrArg Prod.fst (from_sql_current T 0 _ _ rfl))

/-- Through a `SELECT ?` statement an `int` and a text without NUL character come back as they
were bound. -/
theorem int_text_round_trip (other : Row) (st : statement)
    (hcur : st.m_bind_idx = 1) (hacc : ∀ s : Scalar, st.m_stmt.bind_rc 1 s = SQLITE_OK) :
    (∀ v : Int,
      round_trip_host other st (Host.int v) (Ty.scalar ScalarTy.int) = some (Val.int v)) ∧
    (∀ s : String, Char.ofNat 0 ∉ s.data →
      round_trip_host other st (Host.text s) (Ty.scalar ScalarTy.text) = some (Val.text s)) := by
  constructor
  · intro v
    simp only [round_trip_host, bind_impl_overload]
    rw [round_trip_scalar other st _ _ hcur (hacc _)]
    simp [statement.get, from_sql, statement.get_impl_i, statement.on_row, echo_row]
  · intro s hs
    simp only [round_trip_host, bind_impl_overload]
    rw [round_trip_scalar other st _ _ hcur (hacc _)]
    simp [statement.get, from_sql, statement.get_impl_s, statement.on_row, echo_row,
      c_str_of_no_nul s hs]

/-- Claim C13 at the failing input: the `double` 1.5 bound to the parameter of `SELECT ?` is
decoded from column 0 as the `double` 1, not 1.5.  Whatever the engine, binding the `double`
1.5 is the same engine call as binding the `int` 1. -/
theorem double_round_trip_truncates :
    round_trip_host sample_row (statement.mk select_one_stmt 1) (Host.double (3 / 2))
        (Ty.scalar ScalarTy.double) = some (Val.double 1) ∧
    Val.double 1 ≠ Val.double (3 / 2) ∧
    (∀ (other : Row) (st : statement) (T : Ty),
      round_trip_host other st (Host.double (3 / 2)) T =
        round_trip_host other st (Host.int 1) T) := by
  refine ⟨?_, ?_, ?_⟩
  · simp only [round_trip_host, bind_impl_overload, double_to_int_three_halves]
    rw [round_trip_scalar sample_row _ _ _ rfl (by decide)]
    simp [statement.get, from_sql, statement.get_impl_d, statement.on_row, echo_row]
  · intro h
    injection h with h
    norm_num at h
  · intro other st T
    simp only [round_trip_host, bind_impl_overload, double_to_int_three_halves]

/-- Claim C19 (nested decode advances one column per component).  Decoding
`tuple<pair<A, B>, C>` at index `k` reads `A` at column `k`, `B` at column `k + 1` and `C` at
column `k + 1`; the columns handed to the engine are `k, k + 1, k + 1`.  So decoding does not
invert the flattened encoding: the tuple `((1, 2), 3)` is bound to parameters 1, 2, 3, and the
row echoing them decodes to `((1, 2), 2)`. -/
theorem nested_decode_overlaps (A B C : ScalarTy) (k : Int) (st : statement) :
    from_sql (Ty.tuple [Ty.pair (Ty.scalar A) (Ty.scalar B), Ty.scalar C]) k st =
      (Val.tuple
        [Val.pair (from_sql (Ty.scalar A) k st).1 (from_sql (Ty.scalar B) (k + 1) st).1,
         (from_sql (Ty.scalar C) (k + 1) st).1],
       [k, k + 1, k + 1]) ∧
    ((statement.mk sample_stmt 1).bind
        (Arg.tuple [Arg.pair (Arg.scalar (Scalar.int 1)) (Arg.scalar (Scalar.int 2)),
          Arg.scalar (Scalar.int 3)])).st.m_stmt.bind_calls =
      [(1, Scalar.int 1), (2, Scalar.int 2), (3, Scalar.int 3)] ∧
    round_trip sample_row (statement.mk sample_stmt 1)
        (Arg.tuple [Arg.pair (Arg.scalar (Scalar.int 1)) (Arg.scalar (Scalar.int 2)),
          Arg.scalar (Scalar.int 3)])
        (Ty.tuple [Ty.pair (Ty.scalar ScalarTy.int) (Ty.scalar ScalarTy.int),
          Ty.scalar ScalarTy.int]) =
      some (Val.tuple [Val.pair (Val.int 1) (Val.int 2), Val.int 2]) ∧
    Val.tuple [Val.pair (Val.int 1) (Val.int 2), Val.int 2] ≠
      Val.tuple [Val.pair (Val.int 1) (Val.int 2), Val.int 3] := by
  refine ⟨?_, by decide, by rfl, ?_⟩
  · simp only [from_sql, from_sql_each, from_sql_scalar_reads, List.append_nil,
      List.singleton_append, List.cons_append, List.nil_append]
  · intro h
    injection h with h
    simp at h

end sqlitepp17
